import Mathlib

/-!
# The 3D blockchain explorer: layout, selection, statistics and dashboard widgets

A shallow embedding of `static/js/blockchain-3d.js` (class `Blockchain3D`), of
`static/js/dashboard-3d.js` (class `Dashboard3D`) and of `static/js/theme.js`
(class `ThemeManager`, `utils.formatNumber`).

Conventions of the embedding:

* JavaScript numbers are rationals.  Every number the layout computes from integers
  (`(index - N / 2) * 3`, scale `1.1`) is a rational with a small denominator and is
  exact in double arithmetic; the only transcendental function used, `Math.sin`, is a
  field of `Env`, as are the other library functions the code calls.  Where the
  rounding of double arithmetic decides a claim, it is part of the embedding: the
  camera interpolation (`lerpVectors`, `focusTarget`) rounds each operation with
  `roundDouble`, and `Number.prototype.toString` prints the shortest digits that
  round to the number (`numberToString`).
* `THREE.Mesh` objects have identity.  They live in a heap `meshes`, indexed by an
  object identity (a natural number); `new THREE.Mesh` takes the next unused
  identity `nextMesh`.  `blockMeshes` and `selectedBlock` hold identities.
* The scene graph of the rendering engine (`scene.add`, `scene.remove`, `dispose`
  of geometries and materials, label sprites) is owned by the engine and is not
  part of the state.
* The document is a map from element id (for the table body, the selector
  `#blocks-table tbody`) to the element's content, `none` when the page has no such
  element.
* Function objects have identity: a listener is an arrow function made at a
  registration, or the method of a class.
-/

namespace Explorer

/-! ## Data model -/

/-- A `THREE.Vector3`. -/
structure Vector3 where
  x : ℚ
  y : ℚ
  z : ℚ
deriving DecidableEq

/-- A `THREE.Color`, recorded as the arguments of the setter that wrote it:
`setHex(h)` (also the `color:` option of a material) or `setRGB(r, g, b)`. -/
inductive Color where
  | hex (h : Nat)
  | rgb (r g b : ℚ)
deriving DecidableEq

/-- One transaction of a block, as delivered by `/api/blocks`.  The optional
fields are `none` when the JSON object has no such key. -/
structure TransactionRecord where
  type : String
  user_id : Option String
  username : Option String
  amount : Option ℚ
  certificate_id : Option String
deriving DecidableEq

/-- One block, as delivered by `/api/blocks`. -/
structure BlockRecord where
  index : Nat
  hash : String
  previous_hash : String
  timestamp : String
  nonce : Int
  transactions : List TransactionRecord
deriving DecidableEq

/-- The `userData` of a block mesh: `{ ...block, originalY: y }`. -/
structure UserData where
  block : BlockRecord
  originalY : ℚ
deriving DecidableEq

/-- The part of a `THREE.Mesh` (with its own `MeshLambertMaterial`) that the code
reads or writes: `material.color`, `material.emissive`, `position`, `rotation.y`,
`scale` and `userData`. -/
structure Mesh where
  color : Nat
  emissive : Color
  position : Vector3
  rotationY : ℚ
  scale : Vector3
  userData : UserData
deriving DecidableEq

/-- A connection line: the two points given to `setFromPoints`. -/
structure Line where
  start : Vector3
  stop : Vector3
deriving DecidableEq

/-- The camera: its position and the point last given to `lookAt`. -/
structure Camera where
  position : Vector3
  lookAt : Option Vector3
deriving DecidableEq

/-- The library functions the code calls: `Math.sin`, `new Date(t).toLocaleString()`
and the conversion of a number to a string in a template literal. -/
structure Env where
  sin : ℚ → ℚ
  toLocaleString : String → String
  numberToString : ℚ → String

/-- The state of a `Blockchain3D` instance together with the document it writes to.
`controls` is `this.controls.target` when `this.controls` and its `target` exist. -/
structure Blockchain3D where
  meshes : Nat → Mesh
  nextMesh : Nat
  camera : Camera
  controls : Option Vector3
  blockMeshes : List Nat
  connectionLines : List Line
  blocks : List BlockRecord
  selectedBlock : Option Nat
  document : String → Option String

/-- The content of heap cells that hold no mesh yet. -/
def Mesh.blank : Mesh :=
  { color := 0xffffff, emissive := Color.hex 0x000000,
    position := ⟨0, 0, 0⟩, rotationY := 0, scale := ⟨1, 1, 1⟩,
    userData := { block := ⟨0, "", "", "", 0, []⟩, originalY := 0 } }

/-- The state after `constructor()` and `setupCamera()`, on a page given by
`document`: no meshes, no lines, no blocks, nothing selected, the camera at
`(0, 5, 10)`. -/
def Blockchain3D.create (document : String → Option String)
    (controls : Option Vector3) : Blockchain3D :=
  { meshes := fun _ => Mesh.blank, nextMesh := 0,
    camera := { position := ⟨0, 5, 10⟩, lookAt := none },
    controls := controls,
    blockMeshes := [], connectionLines := [], blocks := [],
    selectedBlock := none, document := document }

/-- Library method `Array.prototype.forEach` with the element index: the callback is applied to
the elements in order, threading the state. -/
def forEachFrom {σ α : Type} (callback : σ → Nat → α → σ) : Nat → List α → σ → σ
  | _, [], s => s
  | i, a :: rest, s => forEachFrom callback (i + 1) rest (callback s i a)

/-- The `forEach` of an array, starting at index 0. -/
def forEach {σ α : Type} (xs : List α) (callback : σ → Nat → α → σ) (s : σ) : σ :=
  forEachFrom callback 0 xs s

/-! ## `Blockchain3D`: layout -/

/-- Method `clearScene()`: `blockMeshes` and `connectionLines` become empty arrays.
(The removals from the scene and the `dispose` calls act on the engine only.) -/
def clearScene (s : Blockchain3D) : Blockchain3D :=
  { s with blockMeshes := [], connectionLines := [] }

/-- Method `createConnectionLine(startPos, endPos)`: a line between clones of the two
points is pushed on `connectionLines`. -/
def createConnectionLine (s : Blockchain3D) (startPos endPos : Vector3) : Blockchain3D :=
  { s with connectionLines := s.connectionLines ++ [{ start := startPos, stop := endPos }] }

/-- The spacing constant of `createBlockchainVisualization`. -/
def spacing : ℚ := 3

/-- Local `isGenesis` of the layout loop: `block.index === 0`. -/
def isGenesis (block : BlockRecord) : Bool := block.index == 0

/-- Local `isRecent` of the layout loop: `index >= this.blocks.length - 3`, over the
integers (the right-hand side is negative for fewer than three blocks). -/
def isRecent (length index : Nat) : Bool := decide ((length : Int) - 3 ≤ (index : Int))

/-- The colour of the block material: default blue, then green when `isGenesis`,
then red when `isRecent`, the assignments in the order of the source. -/
def blockColor (block : BlockRecord) (length index : Nat) : Nat :=
  let color := 0x1E90FF
  let color := if isGenesis block then 0x32CD32 else color
  let color := if isRecent length index then 0xFF6B6B else color
  color

/-- The position given to the block at sequence position `index` of `length`
blocks: `x = (index - length / 2) * spacing`, `y = Math.sin(index * 0.3) * 0.5`,
`z = 0`. -/
def blockPosition (env : Env) (length index : Nat) : Vector3 :=
  { x := ((index : ℚ) - (length : ℚ) / 2) * spacing,
    y := env.sin ((index : ℚ) * 0.3) * 0.5,
    z := 0 }

/-- The mesh `new THREE.Mesh(blockGeometry, blockMaterial)` of the layout loop once
its position and `userData` are set: the block's colour, the default emissive
`0x000000`, rotation 0 and scale `(1, 1, 1)` of a new mesh. -/
def newBlockMesh (env : Env) (length index : Nat) (block : BlockRecord) : Mesh :=
  let position := blockPosition env length index
  { color := blockColor block length index,
    emissive := Color.hex 0x000000,
    position := position,
    rotationY := 0,
    scale := ⟨1, 1, 1⟩,
    userData := { block := block, originalY := position.y } }

/-- The body of the `forEach` of `createBlockchainVisualization` for one block:
a new mesh with the block's colour and position is pushed on `blockMeshes`, and for
`index > 0` a line from the position of `this.blockMeshes[index - 1]` to the
position of the new mesh is created.  (Reading a missing `blockMeshes[index - 1]`
would be a `TypeError`; the branch is kept as a no-op and is never taken in
`createBlockchainVisualization`, where `blockMeshes` has `index + 1` elements at
that point.  `createBlockLabel` only adds a sprite to the scene.) -/
def layoutBlock (env : Env) (s : Blockchain3D) (index : Nat) (block : BlockRecord) :
    Blockchain3D :=
  let blockMesh := newBlockMesh env s.blocks.length index block
  let id := s.nextMesh
  let s1 : Blockchain3D :=
    { s with meshes := Function.update s.meshes id blockMesh,
             nextMesh := id + 1,
             blockMeshes := s.blockMeshes ++ [id] }
  if 0 < index then
    match s1.blockMeshes[index - 1]? with
    | some previous =>
      createConnectionLine s1 (s1.meshes previous).position (s1.meshes id).position
    | none => s1
  else s1

/-- Method `centerCameraOnChain()`: nothing for an empty chain; otherwise the camera is
put at `(centerX, 5, 10)` and directed at `(centerX, 0, 0)` (through the controls'
target when there are controls). -/
def centerCameraOnChain (s : Blockchain3D) : Blockchain3D :=
  if s.blocks.length = 0 then s
  else
    let chainLength : ℚ := ((s.blocks.length : ℚ) - 1) * 3
    let centerX : ℚ := chainLength / 2 - ((s.blocks.length : ℚ) / 2) * 3
    let camera : Camera := { s.camera with position := ⟨centerX, 5, 10⟩ }
    match s.controls with
    | some _ =>
      { s with camera := { camera with lookAt := some ⟨centerX, 0, 0⟩ },
               controls := some ⟨centerX, 0, 0⟩ }
    | none => { s with camera := { camera with lookAt := some ⟨centerX, 0, 0⟩ } }

/-- Method `createBlockchainVisualization()`: clear, lay out every block of `this.blocks`
in order, centre the camera. -/
def createBlockchainVisualization (env : Env) (s : Blockchain3D) : Blockchain3D :=
  let s := clearScene s
  let s := forEach s.blocks (layoutBlock env) s
  centerCameraOnChain s

/-- The mesh `this.blockMeshes[i]`, when the array has an element `i`. -/
def blockMeshAt (s : Blockchain3D) (i : Nat) : Option Mesh :=
  (s.blockMeshes[i]?).map s.meshes

/-! ## `Blockchain3D`: idle animation -/

/-- The emissive colour of the pulse: `setRGB(0.1 * pulse, 0.1 * pulse, 0.3 * pulse)`
with `pulse = Math.sin(time * 3) * 0.1 + 1`. -/
def pulseColor (env : Env) (time : ℚ) : Color :=
  let pulse := env.sin (time * 3) * 0.1 + 1
  Color.rgb (0.1 * pulse) (0.1 * pulse) (0.3 * pulse)

/-- What one frame of `animateBlocks` does to the mesh at position `index` of
`length` meshes: float around `originalY`, rotate, and for `index >= length - 3`
set the emissive colour to the pulse. -/
def animatedMesh (env : Env) (time : ℚ) (length index : Nat) (mesh : Mesh) : Mesh :=
  let mesh : Mesh :=
    { mesh with
      position := { mesh.position with
        y := mesh.userData.originalY + env.sin (time + (index : ℚ) * 0.5) * 0.1 },
      rotationY := mesh.rotationY + 0.005 }
  if isRecent length index then { mesh with emissive := pulseColor env time } else mesh

/-- The body of the `forEach` of `animateBlocks` for the mesh at position `index`
of `blockMeshes`. -/
def animateBlock (env : Env) (time : ℚ) (s : Blockchain3D) (index : Nat) (id : Nat) :
    Blockchain3D :=
  let mesh := animatedMesh env time s.blockMeshes.length index (s.meshes id)
  { s with meshes := Function.update s.meshes id mesh }

/-- Method `animateBlocks()` at `time = Date.now() * 0.001`. -/
def animateBlocks (env : Env) (time : ℚ) (s : Blockchain3D) : Blockchain3D :=
  forEach s.blockMeshes (animateBlock env time) s

/-! ## `Blockchain3D`: the detail panel -/

/-- Truthiness of an optional string: present and not empty. -/
def truthyString : Option String → Bool
  | some v => v != ""
  | none => false

/-- Truthiness of an optional number: present and not zero. -/
def truthyNumber : Option ℚ → Bool
  | some v => v != 0
  | none => false

/-- The `Type` entry of a transaction item. -/
def typeEntry (tx : TransactionRecord) : String :=
  "<small><strong>Type:</strong> " ++ tx.type ++ "</small>"

/-- The `User` entry: present when `tx.user_id` is truthy, showing
`tx.username || tx.user_id`. -/
def userEntry (tx : TransactionRecord) : String :=
  if truthyString tx.user_id then
    "<small><strong>User:</strong> "
      ++ (if truthyString tx.username then tx.username.getD "" else tx.user_id.getD "")
      ++ "</small>"
  else ""

/-- The `Amount` entry: present when `tx.amount` is truthy. -/
def amountEntry (env : Env) (tx : TransactionRecord) : String :=
  if truthyNumber tx.amount then
    "<small><strong>Amount:</strong> " ++ env.numberToString (tx.amount.getD 0) ++ "</small>"
  else ""

/-- The `Certificate` entry: present when `tx.certificate_id` is truthy. -/
def certificateEntry (tx : TransactionRecord) : String :=
  if truthyString tx.certificate_id then
    "<small><strong>Certificate:</strong> " ++ tx.certificate_id.getD "" ++ "</small>"
  else ""

/-- The markup of one transaction in `showBlockDetails`.  White space between the
tags of the template literal is written as one line break. -/
def transactionItem (env : Env) (tx : TransactionRecord) : String :=
  "\n<div class=\"transaction-item\">\n" ++ typeEntry tx ++ "\n" ++ userEntry tx ++ "\n"
    ++ amountEntry env tx ++ "\n" ++ certificateEntry tx ++ "\n</div>\n"

/-- The markup `showBlockDetails` assigns to the panel's `innerHTML`. -/
def blockDetailsHtml (env : Env) (block : BlockRecord) : String :=
  let transactionsHtml := String.join (block.transactions.map (transactionItem env))
  "\n<h6>Block #" ++ toString block.index ++ "</h6>\n"
    ++ "<div class=\"block-detail-item\">\n<strong>Hash:</strong>\n"
    ++ "<code class=\"d-block text-break\">" ++ block.hash ++ "</code>\n</div>\n"
    ++ "<div class=\"block-detail-item\">\n<strong>Previous Hash:</strong>\n"
    ++ "<code class=\"d-block text-break\">" ++ block.previous_hash ++ "</code>\n</div>\n"
    ++ "<div class=\"block-detail-item\">\n<strong>Timestamp:</strong>\n"
    ++ "<span>" ++ env.toLocaleString block.timestamp ++ "</span>\n</div>\n"
    ++ "<div class=\"block-detail-item\">\n<strong>Nonce:</strong>\n"
    ++ "<span>" ++ toString block.nonce ++ "</span>\n</div>\n"
    ++ "<div class=\"block-detail-item\">\n<strong>Transactions ("
    ++ toString block.transactions.length ++ "):</strong>\n"
    ++ "<div class=\"transactions-list mt-2\">\n"
    ++ (if transactionsHtml != "" then transactionsHtml
        else "<p class=\"text-muted\">No transactions</p>")
    ++ "\n</div>\n</div>\n"

/-- Method `showBlockDetails(block)`: when the page has a `block-info` element, its
content becomes the block's markup. -/
def showBlockDetails (env : Env) (s : Blockchain3D) (block : BlockRecord) : Blockchain3D :=
  match s.document "block-info" with
  | none => s
  | some _ =>
    let html := blockDetailsHtml env block
    { s with document := Function.update s.document "block-info" (some html) }

/-! ## `Blockchain3D`: selection and camera focus -/

/-- The exponent of the leading bit of `n`, counted by halving (`fuel` halvings
are allowed; `n` of them always suffice). -/
def leadingBitFrom : Nat → Nat → Nat
  | 0, _ => 0
  | fuel + 1, n => if n < 2 then 0 else leadingBitFrom fuel (n / 2) + 1

/-- The exponent of the leading bit of `n`: the `k` with `2 ^ k <= n < 2 ^ (k + 1)`
for positive `n`, and 0 for 0. -/
def leadingBit (n : Nat) : Nat := leadingBitFrom n n

/-- The double nearest to the rational `q`, ties going to the even significand
(IEEE 754 binary64, round to nearest even), for `q` of magnitude below `2 ^ 1024`:
the significand has 53 bits, the exponent of the last bit is at least `-1074`. -/
def roundDouble (q : ℚ) : ℚ :=
  let a := q.num.natAbs
  let d := q.den
  if a = 0 then 0 else
  let k0 : Int := (leadingBit a : Int) - (leadingBit d : Int)
  let k : Int := if d * 2 ^ k0.toNat ≤ a * 2 ^ (-k0).toNat then k0 else k0 - 1
  let e : Int := max (k - 52) (-1074)
  let num := a * 2 ^ (-e).toNat
  let den := d * 2 ^ e.toNat
  let fl := num / den
  let r := num % den
  let m := if 2 * r < den then fl else if den < 2 * r then fl + 1
           else if fl % 2 = 0 then fl else fl + 1
  let magnitude : ℚ := mkRat (m * 2 ^ e.toNat) (2 ^ (-e).toNat)
  if q.num < 0 then -magnitude else magnitude

/-- The sum `a + b` of two doubles, as the machine computes it. -/
def addDouble (a b : ℚ) : ℚ := roundDouble (a + b)

/-- The difference `a - b` of two doubles, as the machine computes it. -/
def subDouble (a b : ℚ) : ℚ := roundDouble (a - b)

/-- The product `a * b` of two doubles, as the machine computes it. -/
def mulDouble (a b : ℚ) : ℚ := roundDouble (a * b)

/-- Library method `Vector3.lerpVectors(v1, v2, alpha)`: each coordinate is
`v1 + (v2 - v1) * alpha`, computed in doubles. -/
def lerpVectors (v1 v2 : Vector3) (alpha : ℚ) : Vector3 :=
  { x := addDouble v1.x (mulDouble (subDouble v2.x v1.x) alpha),
    y := addDouble v1.y (mulDouble (subDouble v2.y v1.y) alpha),
    z := addDouble v1.z (mulDouble (subDouble v2.z v1.z) alpha) }

/-- The `duration` of `animateCameraTo`, in milliseconds. -/
def duration : ℚ := 1000

/-- Local `progress` of a camera step: `Math.min(elapsed / duration, 1)`. -/
def progress (elapsed : ℚ) : ℚ := min (elapsed / duration) 1

/-- Local `eased` of a camera step: `1 - Math.pow(1 - progress, 3)`. -/
def eased (elapsed : ℚ) : ℚ := 1 - (1 - progress elapsed) ^ 3

/-- One run of the closure `animateCamera` of `animateCameraTo`, `elapsed`
milliseconds after the start: the new camera, and whether the closure asks for
another frame (`progress < 1`).  (The easing value is the exact rational; from
`elapsed = 1000` on, `progress` and `eased` are exactly 1 in doubles as well.)  `lookAtPosition` is the value, at the time of the
step, of the vector the closure holds. -/
def animateCamera (startPosition targetPosition lookAtPosition : Vector3) (elapsed : ℚ)
    (_camera : Camera) : Camera × Bool :=
  ({ position := lerpVectors startPosition targetPosition (eased elapsed),
     lookAt := some lookAtPosition },
   decide (progress elapsed < 1))

/-- Method `animateCameraTo(targetPosition, lookAtPosition)` up to its return: the start
position is the camera's, and the closure runs once, `elapsed` milliseconds (the
difference of the two `Date.now()` readings) after the start. -/
def animateCameraTo (s : Blockchain3D) (targetPosition lookAtPosition : Vector3)
    (elapsed : ℚ) : Blockchain3D :=
  let startPosition := s.camera.position
  let step := animateCamera startPosition targetPosition lookAtPosition elapsed s.camera
  { s with camera := step.1 }

/-- The framing position of `focusOnBlock`: the block's position after `z += 5`
and `y += 2`, computed in doubles. -/
def focusTarget (position : Vector3) : Vector3 :=
  { x := position.x, y := addDouble position.y 2, z := addDouble position.z 5 }

/-- Method `focusOnBlock(blockMesh)`. -/
def focusOnBlock (s : Blockchain3D) (blockMesh : Nat) (elapsed : ℚ) : Blockchain3D :=
  let position := (s.meshes blockMesh).position
  animateCameraTo s (focusTarget position) position elapsed

/-- A mesh without emphasis: `emissive.setHex(0x000000)`, `scale.set(1, 1, 1)`. -/
def Mesh.neutral (mesh : Mesh) : Mesh :=
  { mesh with emissive := Color.hex 0x000000, scale := ⟨1, 1, 1⟩ }

/-- A mesh with the selection emphasis: `emissive.setHex(0x444444)`,
`scale.set(1.1, 1.1, 1.1)`. -/
def Mesh.emphasised (mesh : Mesh) : Mesh :=
  { mesh with emissive := Color.hex 0x444444, scale := ⟨1.1, 1.1, 1.1⟩ }

/-- The body of the first `forEach` of `selectBlock`. -/
def resetMesh (s : Blockchain3D) (_index : Nat) (id : Nat) : Blockchain3D :=
  { s with meshes := Function.update s.meshes id (s.meshes id).neutral }

/-- Method `selectBlock(blockMesh)`: reset every mesh of `blockMeshes`, record the
selection, give the selected mesh the emphasis, show its details, start the camera
animation (whose first step runs `elapsed` milliseconds after its start). -/
def selectBlock (env : Env) (s : Blockchain3D) (blockMesh : Nat) (elapsed : ℚ) :
    Blockchain3D :=
  let s := forEach s.blockMeshes resetMesh s
  let s := { s with selectedBlock := some blockMesh }
  let mesh := (s.meshes blockMesh).emphasised
  let s := { s with meshes := Function.update s.meshes blockMesh mesh }
  let s := showBlockDetails env s (s.meshes blockMesh).userData.block
  focusOnBlock s blockMesh elapsed

/-! ## `Blockchain3D`: statistics -/

/-- Method `updateElement(id, value)`: when the page has the element, its text becomes the
decimal form of `value`. -/
def updateElement (s : Blockchain3D) (id : String) (value : Nat) : Blockchain3D :=
  match s.document id with
  | none => s
  | some _ => { s with document := Function.update s.document id (some (toString value)) }

/-- Local `totalTransactions` of `updateStatistics`: the `reduce` over `this.blocks`. -/
def totalTransactions (blocks : List BlockRecord) : Nat :=
  blocks.foldl (fun sum block => sum + block.transactions.length) 0

/-- Method `updateStatistics()`. -/
def updateStatistics (s : Blockchain3D) : Blockchain3D :=
  let totalBlocks := s.blocks.length
  let total := totalTransactions s.blocks
  let s := updateElement s "total-blocks" totalBlocks
  let s := updateElement s "total-transactions" total
  updateElement s "chain-length" totalBlocks

/-! ## `Dashboard3D`: the widgets -/

/-- A rendered item of a widget (coin, card or cube): what the loop sets on it. -/
structure Item where
  position : Vector3
  rotationY : ℚ
deriving DecidableEq

/-- What an `init...3D` call builds for its container: the local array of items
(`coins`, `cards`, `cubes`), the connecting lines added to the scene, and the
camera position. -/
structure Widget where
  items : List Item
  lines : List Line
  cameraPosition : Vector3
deriving DecidableEq

/-- The state of `Dashboard3D`: the widget stored under each container id
(`this.scenes`, `this.renderers` and `this.cameras` are written together). -/
abbrev Dashboard3D := String → Option Widget

/-- A counting loop `for (let i = 0; i < n; i++) body`. -/
def forLoop {σ : Type} (n : Nat) (body : σ → Nat → σ) (s : σ) : σ :=
  (List.range n).foldl body s

/-- Local `maxCoins = Math.min(Math.floor(creditAmount / 10), 10)`. -/
def maxCoins (creditAmount : Nat) : Nat := min (creditAmount / 10) 10

/-- Local `maxCards = Math.min(certificateCount, 5)`. -/
def maxCards (certificateCount : Nat) : Nat := min certificateCount 5

/-- Local `maxCubes = Math.min(blockCount, 6)`. -/
def maxCubes (blockCount : Nat) : Nat := min blockCount 6

/-- Method `initCredits3D(containerId, creditAmount)`: nothing when the page has no such
container; otherwise a stack of `maxCoins` coins. -/
def initCredits3D (document : String → Option String) (d : Dashboard3D)
    (containerId : String) (creditAmount : Nat) : Dashboard3D :=
  match document containerId with
  | none => d
  | some _ =>
    let coins : List Item := forLoop (maxCoins creditAmount)
      (fun coins i => coins ++ [{ position := ⟨0, (i : ℚ) * 0.06, 0⟩,
                                  rotationY := (i : ℚ) * 0.1 }]) []
    Function.update d containerId
      (some { items := coins, lines := [], cameraPosition := ⟨1, 1, 2⟩ })

/-- Method `initCertificates3D(containerId, certificateCount)`: nothing when the page has
no such container; otherwise a fan of `maxCards` cards. -/
def initCertificates3D (document : String → Option String) (d : Dashboard3D)
    (containerId : String) (certificateCount : Nat) : Dashboard3D :=
  match document containerId with
  | none => d
  | some _ =>
    let n := maxCards certificateCount
    let cards : List Item := forLoop n
      (fun cards i => cards ++ [{ position := ⟨((i : ℚ) - (n : ℚ) / 2) * 0.3, 0, (i : ℚ) * (-0.1)⟩,
                                  rotationY := ((i : ℚ) - (n : ℚ) / 2) * 0.1 }]) []
    Function.update d containerId
      (some { items := cards, lines := [], cameraPosition := ⟨0, 0, 2⟩ })

/-- Method `initBlocks3D(containerId, blockCount)`: nothing when the page has no such
container; otherwise a row of `maxCubes` cubes, each after the first joined to its
predecessor by a line. -/
def initBlocks3D (env : Env) (document : String → Option String) (d : Dashboard3D)
    (containerId : String) (blockCount : Nat) : Dashboard3D :=
  match document containerId with
  | none => d
  | some _ =>
    let n := maxCubes blockCount
    let built : List Item × List Line := forLoop n
      (fun acc i =>
        let cube : Item :=
          { position := ⟨((i : ℚ) - (n : ℚ) / 2) * 0.4, env.sin ((i : ℚ) * 0.5) * 0.2, 0⟩,
            rotationY := 0 }
        let lines : List Line :=
          if 0 < i then
            acc.2 ++ [{ start := ⟨((i : ℚ) - 1 - (n : ℚ) / 2) * 0.4,
                                  env.sin (((i : ℚ) - 1) * 0.5) * 0.2, 0⟩,
                        stop := ⟨((i : ℚ) - (n : ℚ) / 2) * 0.4,
                                 env.sin ((i : ℚ) * 0.5) * 0.2, 0⟩ }]
          else acc.2
        (acc.1 ++ [cube], lines)) ([], [])
    Function.update d containerId
      (some { items := built.1, lines := built.2, cameraPosition := ⟨0, 0, 3⟩ })

/-! ## `Blockchain3D`: loading -/

/-- The markup `showError` assigns to the panel's `innerHTML`.  White space between
the tags of the template literal is written as one line break. -/
def errorHtml (message : String) : String :=
  "\n<div class=\"alert alert-danger\">\n"
    ++ "<h6><i class=\"fas fa-exclamation-triangle me-2\"></i>Error</h6>\n"
    ++ "<p>" ++ message ++ "</p>\n"
    ++ "<button class=\"btn btn-sm btn-outline-danger\" "
    ++ "onclick=\"blockchain3D.loadBlockchainData()\">\n"
    ++ "<i class=\"fas fa-refresh me-1\"></i>Retry\n</button>\n</div>\n"

/-- Method `showError(message)`: when the page has a `block-info` element, its
content becomes the error view with the retry button. -/
def showError (s : Blockchain3D) (message : String) : Blockchain3D :=
  match s.document "block-info" with
  | none => s
  | some _ =>
    let html := errorHtml message
    { s with document := Function.update s.document "block-info" (some html) }

/-- The markup of the table row of one block in `updateBlocksTable`.  (The click
listener of the row selects the mesh whose `userData.index` is the block's.) -/
def tableRow (env : Env) (block : BlockRecord) : String :=
  "<tr>\n<td><span class=\"badge bg-primary\">" ++ toString block.index ++ "</span></td>\n"
    ++ "<td><code class=\"hash-short\">" ++ block.hash.take 16 ++ "...</code></td>\n"
    ++ "<td><code class=\"hash-short\">" ++ block.previous_hash.take 16 ++ "...</code></td>\n"
    ++ "<td>" ++ env.toLocaleString block.timestamp ++ "</td>\n"
    ++ "<td><span class=\"badge bg-info\">" ++ toString block.transactions.length
    ++ "</span></td>\n"
    ++ "<td>" ++ toString block.nonce ++ "</td>\n</tr>"

/-- Method `updateBlocksTable()`: when the page has the table body, it is emptied
and gets one row per block of `this.blocks`, in order. -/
def updateBlocksTable (env : Env) (s : Blockchain3D) : Blockchain3D :=
  match s.document "#blocks-table tbody" with
  | none => s
  | some _ =>
    let rows := String.join (s.blocks.map (tableRow env))
    { s with document := Function.update s.document "#blocks-table tbody" (some rows) }

/-- The outcome of `fetch('/api/blocks')` followed by `response.json()`: the promise
rejects, or there is a response with its `ok` flag, its status and its body.  The
body is a JSON array of block records, as the interface of `/api/blocks` has it
(`some`), or it is not JSON at all, so that `response.json()` rejects (`none`);
JSON of another shape is outside the data model. -/
inductive FetchResult where
  | rejected
  | response (ok : Bool) (status : Nat) (json : Option (List BlockRecord))

/-- Method `loadBlockchainData()`, run on the state the instance has when the fetch
settles.  A rejected fetch, a response that is not `ok` and a body that is not JSON
all throw into the `catch` before `this.blocks` is assigned, and the `catch` calls
`showError`; otherwise the blocks are stored, laid out, counted and tabulated. -/
def loadBlockchainData (env : Env) (s : Blockchain3D) (fetched : FetchResult) :
    Blockchain3D :=
  match fetched with
  | FetchResult.rejected => showError s "Failed to load blockchain data"
  | FetchResult.response false _ _ => showError s "Failed to load blockchain data"
  | FetchResult.response true _ none => showError s "Failed to load blockchain data"
  | FetchResult.response true _ (some blocks) =>
    let s := { s with blocks := blocks }
    let s := createBlockchainVisualization env s
    let s := updateStatistics s
    updateBlocksTable env s

/-! ## `Blockchain3D`: listeners on `window` -/

/-- A function object: the arrow function made by the `created`-th evaluation of a
function expression, or the method `name` of the class (the value of
`this.onWindowResize`, `this.updateTheme`). -/
inductive Callback where
  | arrow (created : Nat)
  | method (name : String)
deriving DecidableEq

/-- The listeners registered on `window`, in order of registration, each with its
event type, and the number of function expressions evaluated so far. -/
structure Window where
  listeners : List (String × Callback)
  created : Nat
deriving DecidableEq

/-- Library method `window.addEventListener(type, callback)`: registering the same
function object for the same type twice has no effect. -/
def addEventListener (w : Window) (type : String) (callback : Callback) : Window :=
  if (type, callback) ∈ w.listeners then w
  else { w with listeners := w.listeners ++ [(type, callback)] }

/-- Library method `window.removeEventListener(type, callback)`: the registration of
that very function object for that type is removed, if there is one. -/
def removeEventListener (w : Window) (type : String) (callback : Callback) : Window :=
  { w with listeners := w.listeners.filter (fun l => decide (l ≠ (type, callback))) }

/-- Method `setupEventListeners()`: three arrow functions are made; the first goes
to the `click` of the renderer's canvas, the second is registered on `window` for
`resize`, the third for `themeChanged`. -/
def setupEventListeners (w : Window) : Window :=
  let resize := Callback.arrow (w.created + 1)
  let themeChanged := Callback.arrow (w.created + 2)
  let w := { w with created := w.created + 3 }
  let w := addEventListener w "resize" resize
  addEventListener w "themeChanged" themeChanged

/-- The arrow function `setupEventListeners` registers for `resize` on `w`. -/
def resizeListener (w : Window) : Callback := Callback.arrow (w.created + 1)

/-- The arrow function `setupEventListeners` registers for `themeChanged` on `w`. -/
def themeListener (w : Window) : Callback := Callback.arrow (w.created + 2)

/-- Method `dispose()`: the scene is cleared and `removeEventListener` is called
with `this.onWindowResize` for `resize` and `this.updateTheme` for `themeChanged`.
(Cancelling the frame request and disposing of the renderer act on the engine.) -/
def dispose (s : Blockchain3D) (w : Window) : Blockchain3D × Window :=
  let s := clearScene s
  let w := removeEventListener w "resize" (Callback.method "onWindowResize")
  let w := removeEventListener w "themeChanged" (Callback.method "updateTheme")
  (s, w)

/-! ## `ThemeManager` -/

/-- The state `ThemeManager` reads and writes: its `currentTheme`, the `data-theme`
attribute of the document element, the item `theme` of local storage, the class of
the `theme-icon` element (`none` when the page has none) and the themes of the
`themeChanged` events dispatched so far. -/
structure ThemeManager where
  currentTheme : String
  dataTheme : Option String
  stored : Option String
  themeIcon : Option String
  dispatched : List String
deriving DecidableEq

/-- Method `updateThemeIcon()`. -/
def updateThemeIcon (t : ThemeManager) : ThemeManager :=
  match t.themeIcon with
  | none => t
  | some _ =>
    let className := if t.currentTheme = "light" then "fas fa-moon" else "fas fa-sun"
    { t with themeIcon := some className }

/-- Method `setTheme(theme)`. -/
def setTheme (t : ThemeManager) (theme : String) : ThemeManager :=
  let t := { t with dataTheme := some theme }
  let t := { t with currentTheme := theme }
  let t := { t with stored := some theme }
  let t := updateThemeIcon t
  { t with dispatched := t.dispatched ++ [theme] }

/-- Method `toggleTheme()`. -/
def toggleTheme (t : ThemeManager) : ThemeManager :=
  let newTheme := if t.currentTheme = "light" then "dark" else "light"
  setTheme t newTheme

/-- The value of `localStorage.getItem('theme') || 'light'`. -/
def initialTheme (stored : Option String) : String :=
  match stored with
  | some v => if v = "" then "light" else v
  | none => "light"

/-- The `constructor()` with its `init()`, on a page with the given `data-theme`
attribute, stored item and icon: `currentTheme` is read from storage, then
`setTheme` and `updateThemeIcon` run.  (The click listener of the toggle button calls
`toggleTheme`.) -/
def ThemeManager.construct (dataTheme stored themeIcon : Option String) : ThemeManager :=
  let t : ThemeManager :=
    { currentTheme := initialTheme stored, dataTheme := dataTheme, stored := stored,
      themeIcon := themeIcon, dispatched := [] }
  let t := setTheme t t.currentTheme
  updateThemeIcon t

/-! ## `utils.formatNumber` -/

/-- The class `\d` of the regular expression. -/
def isDigit (c : Char) : Bool := decide ('0' ≤ c ∧ c ≤ '9')

/-- The class `\w` of the regular expression. -/
def isWord (c : Char) : Bool :=
  isDigit c || decide ('a' ≤ c ∧ c ≤ 'z') || decide ('A' ≤ c ∧ c ≤ 'Z') || c == '_'

/-- The assertion `\B` between the character `before` and the character `after`
(`none` at an end of the string): the two sides agree on being a word character. -/
def notWordBoundary (before after : Option Char) : Bool :=
  (match before with | some c => isWord c | none => false)
    == (match after with | some c => isWord c | none => false)

/-- The assertion `(?!\d)` at the start of `rest`. -/
def noDigitAhead : List Char → Bool
  | [] => true
  | c :: _ => !isDigit c

/-- Whether `(\d{3})+(?!\d)` matches at the start of `rest`: some number, at least
one, of groups of three digits, not followed by a digit. -/
def groupsOfThree : List Char → Bool
  | a :: b :: c :: rest =>
    isDigit a && isDigit b && isDigit c && (noDigitAhead rest || groupsOfThree rest)
  | _ => false

/-- Whether the regular expression `\B(?=(\d{3})+(?!\d))` matches (the empty string)
at the position before `rest`, the character before the position being `before`. -/
def matchesAt (before : Option Char) (rest : List Char) : Bool :=
  notWordBoundary before rest.head? && groupsOfThree rest

/-- The global `replace` of the pattern by `","`: every position of the string is
tried in turn, and a comma is put where the pattern matches. -/
def replaceFrom (before : Option Char) : List Char → List Char
  | [] => if matchesAt before [] then [','] else []
  | c :: rest =>
    (if matchesAt before (c :: rest) then [','] else []) ++ c :: replaceFrom (some c) rest

/-- The double nearest to the natural number `x` (ties to the even significand),
for `x` below `2 ^ 1024`: `x` itself below `2 ^ 53`, otherwise `x` rounded to 53
significant bits. -/
def roundInteger (x : Nat) : Nat :=
  if x < 2 ^ 53 then x
  else
    let e := leadingBit x - 52
    let q := x / 2 ^ e
    let r := x % 2 ^ e
    let half := 2 ^ (e - 1)
    let m := if r < half then q else if half < r then q + 1
             else if q % 2 = 0 then q else q + 1
    m * 2 ^ e

/-- The multiple of `10 ^ j` that `Number.prototype.toString` would print for the
double `x`, if one rounds to `x`: of the two multiples around `x`, the one that
rounds to `x` and is closer to `x` (on a tie, the one with the even quotient). -/
def shortestAt (x j : Nat) : Option Nat :=
  let lo := x / 10 ^ j * 10 ^ j
  let hi := lo + 10 ^ j
  if roundInteger lo = x then
    if roundInteger hi = x
        ∧ (hi - x < x - lo ∨ (hi - x = x - lo ∧ (x / 10 ^ j) % 2 = 1)) then some hi
    else some lo
  else if roundInteger hi = x then some hi
  else none

/-- The integer whose digits `Number.prototype.toString` prints for the
integer-valued double `x`: the one with the most trailing zeros among the integers
that round to `x` (the fewest significant digits, as ECMAScript asks).  The powers
of ten tried are those below `10 ^ n`, `n` being the number of digits of `x`. -/
def shortestDecimal (x : Nat) : Nat :=
  ((List.range (Nat.toDigits 10 x).length).reverse.findSome? (shortestAt x)).getD x

/-- Library method `Number.prototype.toString()` on a non-negative integer-valued
double `x`: the digits of `shortestDecimal x` when there are at most 21 of them,
and the exponent notation (`1e+21`, `1.5e+300`) otherwise. -/
def numberToString (x : Nat) : List Char :=
  let digits := Nat.toDigits 10 (shortestDecimal x)
  if digits.length ≤ 21 then digits
  else
    let significant := (digits.reverse.dropWhile (fun c => c == '0')).reverse
    let exponent := 'e' :: '+' :: Nat.toDigits 10 (digits.length - 1)
    match significant with
    | [] => digits
    | [c] => c :: exponent
    | c :: rest => c :: '.' :: rest ++ exponent

/-- The function `utils.formatNumber(num)` for a number `num` that is a
non-negative integer (a double with that value). -/
def formatNumber (num : Nat) : String :=
  String.mk (replaceFrom none (numberToString num))

/-- The grouping the description of `formatNumber` asks for: a comma before the
digit at position `p` exactly when `p` is not the first position and the number of
digits from `p` to the end is a multiple of three. -/
def groupThousands : List Char → List Char
  | [] => []
  | c :: rest =>
    c :: ((if rest.length % 3 = 0 ∧ rest ≠ [] then [','] else []) ++ groupThousands rest)

/-! ## Reachable states -/

/-- The states an instance reaches from its initial state by successful loads
(which store the fetched blocks and call `createBlockchainVisualization`),
`selectBlock` on a mesh of `blockMeshes`, and `clearScene`. -/
inductive Reachable (env : Env) : Blockchain3D → Prop where
  | initial (document : String → Option String) (controls : Option Vector3) :
      Reachable env (Blockchain3D.create document controls)
  | load {s : Blockchain3D} (status : Nat) (blocks : List BlockRecord) :
      Reachable env s →
      Reachable env (loadBlockchainData env s (FetchResult.response true status (some blocks)))
  | select {s : Blockchain3D} (b : Nat) (elapsed : ℚ) :
      Reachable env s → b ∈ s.blockMeshes → Reachable env (selectBlock env s b elapsed)
  | clear {s : Blockchain3D} : Reachable env s → Reachable env (clearScene s)

/-- A coordinate of an interpolation from `start` to `target` is exact when the
target is a double and the difference `target - start` is a double too (as when the
camera starts from 0, or from the target itself). -/
def exactStep (start target : ℚ) : Prop :=
  roundDouble target = target ∧ roundDouble (target - start) = target - start

instance (start target : ℚ) : Decidable (exactStep start target) :=
  inferInstanceAs (Decidable (_ ∧ _))

/-! ## Sample inputs -/

/-- A library environment for the samples (its `sin` is constantly 0). -/
def sampleEnv : Env :=
  { sin := fun _ => 0, toLocaleString := fun t => t, numberToString := fun _ => "" }

/-- A page with the detail panel and the three counters. -/
def samplePage : String → Option String := fun id =>
  if id = "block-info" ∨ id = "total-blocks" ∨ id = "total-transactions"
      ∨ id = "chain-length" then some "" else none

/-- A block with the given index and number of transactions. -/
def sampleBlock (index transactions : Nat) : BlockRecord :=
  { index := index, hash := "00ab", previous_hash := "00aa", timestamp := "2024-01-01",
    nonce := 7,
    transactions := List.replicate transactions
      { type := "issue", user_id := none, username := none, amount := none,
        certificate_id := none } }

/-- A fresh instance holding the given fetched blocks. -/
def sampleState (blocks : List BlockRecord) : Blockchain3D :=
  { Blockchain3D.create samplePage none with blocks := blocks }

/-- One fetched block, with index 0. -/
def oneBlock : Blockchain3D := sampleState [sampleBlock 0 0]

/-- Three fetched blocks with indices 0, 1, 2. -/
def threeBlocks : Blockchain3D :=
  sampleState [sampleBlock 0 0, sampleBlock 1 0, sampleBlock 2 0]

/-- Four fetched blocks with indices 0, 1, 2, 3. -/
def fourBlocks : Blockchain3D :=
  sampleState [sampleBlock 0 0, sampleBlock 1 0, sampleBlock 2 0, sampleBlock 3 0]

/-- Five fetched blocks whose first two are in the order 1, 0. -/
def swappedBlocks : Blockchain3D :=
  sampleState [sampleBlock 1 0, sampleBlock 0 0, sampleBlock 2 0, sampleBlock 3 0,
    sampleBlock 4 0]

/-- Five fetched blocks with 2, 0, 1, 3 and 0 transactions. -/
def fiveBlocks : Blockchain3D :=
  sampleState [sampleBlock 0 2, sampleBlock 1 0, sampleBlock 2 1, sampleBlock 3 3,
    sampleBlock 4 0]

/-- The four-block chain laid out, with the mesh at position 1 selected. -/
def selectedChain : Blockchain3D :=
  selectBlock sampleEnv (createBlockchainVisualization sampleEnv fourBlocks) 1 0

/-- A transaction with a user and a certificate, without amount. -/
def sampleTransaction : TransactionRecord :=
  { type := "issue", user_id := some "u7", username := none, amount := none,
    certificate_id := some "GH2-0001" }

/-- A block holding `sampleTransaction` between two plain transactions. -/
def certifiedBlock : BlockRecord :=
  { sampleBlock 5 1 with
    transactions := (sampleBlock 5 1).transactions ++ [sampleTransaction]
      ++ (sampleBlock 5 1).transactions }

/-- A window on which nothing is registered yet. -/
def emptyWindow : Window := { listeners := [], created := 0 }

/-- A manager whose theme is `light`, consistently in all three places. -/
def lightManager : ThemeManager := ThemeManager.construct none none (some "")

/-- A fresh instance after a successful load of one block. -/
def loadedOnce : Blockchain3D :=
  loadBlockchainData sampleEnv (Blockchain3D.create samplePage none)
    (FetchResult.response true 200 (some [sampleBlock 0 0]))

/-- The instance `loadedOnce` after its only mesh is selected and the scene is then
cleared. -/
def clearedAfterSelect : Blockchain3D := clearScene (selectBlock sampleEnv loadedOnce 0 0)

/-- The instance `loadedOnce` after its only mesh is selected and the same block is
then loaded again. -/
def reloadedAfterSelect : Blockchain3D :=
  loadBlockchainData sampleEnv (selectBlock sampleEnv loadedOnce 0 0)
    (FetchResult.response true 200 (some [sampleBlock 0 0]))

/-- A camera position reached by orbiting: the double nearest to `-1.641708288` as
abscissa. -/
def orbitedStart : Vector3 := ⟨roundDouble (-1641708288 / 1000000000), 5, 10⟩

/-- The three-block chain laid out; its mesh 2 is at `(1.5, 0, 0)`. -/
def laidOutThree : Blockchain3D := createBlockchainVisualization sampleEnv threeBlocks

/-- A fresh dashboard: no widget stored. -/
def emptyDashboard : Dashboard3D := fun _ => none

/-- A page with the three widget containers. -/
def dashboardPage : String → Option String := fun id =>
  if id = "credits-3d" ∨ id = "certificates-3d" ∨ id = "blocks-3d" then some "" else none

/-! ## Invariant of the layout loop -/

/-- The state of the layout loop after the first `i` blocks of `blocks`, when the
loop started with an empty `blockMeshes` and the next mesh identity `base`. -/
structure LaidOut (env : Env) (base : Nat) (blocks : List BlockRecord) (i : Nat)
    (s : Blockchain3D) : Prop where
  blocks_eq : s.blocks = blocks
  nextMesh_eq : s.nextMesh = base + i
  blockMeshes_eq : s.blockMeshes = List.range' base i
  lines_eq : s.connectionLines = (List.range (i - 1)).map (fun k =>
    ({ start := blockPosition env blocks.length k,
       stop := blockPosition env blocks.length (k + 1) } : Line))
  mesh_eq : ∀ j b, j < i → blocks[j]? = some b →
    s.meshes (base + j) = newBlockMesh env blocks.length j b

/-! ## Theorems -/

theorem forEachFrom_append {σ α : Type} (f : σ → Nat → α → σ) (xs ys : List α) :
    ∀ (i : Nat) (s : σ),
      forEachFrom f i (xs ++ ys) s = forEachFrom f (i + xs.length) ys (forEachFrom f i xs s) := by
  induction xs with
  | nil => intro i s; simp [forEachFrom]
  | cons a rest ih =>
    intro i s
    have hlen : i + (rest.length + 1) = i + 1 + rest.length := by omega
    simp only [List.cons_append, forEachFrom, List.length_cons, hlen]
    exact ih (i + 1) (f s i a)

theorem newBlockMesh_position (env : Env) (length index : Nat) (block : BlockRecord) :
    (newBlockMesh env length index block).position = blockPosition env length index := rfl

theorem layoutBlock_blocks (env : Env) (s : Blockchain3D) (i : Nat) (b : BlockRecord) :
    (layoutBlock env s i b).blocks = s.blocks := by
  unfold layoutBlock createConnectionLine
  dsimp only
  split_ifs
  · split <;> rfl
  · rfl

theorem layoutBlock_nextMesh (env : Env) (s : Blockchain3D) (i : Nat) (b : BlockRecord) :
    (layoutBlock env s i b).nextMesh = s.nextMesh + 1 := by
  unfold layoutBlock createConnectionLine
  dsimp only
  split_ifs
  · split <;> rfl
  · rfl

theorem layoutBlock_blockMeshes (env : Env) (s : Blockchain3D) (i : Nat) (b : BlockRecord) :
    (layoutBlock env s i b).blockMeshes = s.blockMeshes ++ [s.nextMesh] := by
  unfold layoutBlock createConnectionLine
  dsimp only
  split_ifs
  · split <;> rfl
  · rfl

theorem layoutBlock_meshes (env : Env) (s : Blockchain3D) (i : Nat) (b : BlockRecord) :
    (layoutBlock env s i b).meshes
      = Function.update s.meshes s.nextMesh (newBlockMesh env s.blocks.length i b) := by
  unfold layoutBlock createConnectionLine
  dsimp only
  split_ifs
  · split <;> rfl
  · rfl

theorem layoutBlock_selectedBlock (env : Env) (s : Blockchain3D) (i : Nat) (b : BlockRecord) :
    (layoutBlock env s i b).selectedBlock = s.selectedBlock := by
  unfold layoutBlock createConnectionLine
  dsimp only
  split_ifs
  · split <;> rfl
  · rfl

theorem layoutBlock_lines_zero (env : Env) (s : Blockchain3D) (b : BlockRecord) :
    (layoutBlock env s 0 b).connectionLines = s.connectionLines := by
  simp [layoutBlock]

theorem layoutBlock_lines_succ (env : Env) (s : Blockchain3D) (k : Nat) (b : BlockRecord)
    (previous : Nat) (hprev : (s.blockMeshes ++ [s.nextMesh])[k]? = some previous)
    (hne : previous ≠ s.nextMesh) :
    (layoutBlock env s (k + 1) b).connectionLines
      = s.connectionLines ++ [{ start := (s.meshes previous).position,
                                stop := blockPosition env s.blocks.length (k + 1) }] := by
  simp [layoutBlock, hprev, createConnectionLine, Function.update_noteq hne,
    newBlockMesh_position]

theorem LaidOut.step {env : Env} {base : Nat} {blocks : List BlockRecord} {i : Nat}
    {s : Blockchain3D} (h : LaidOut env base blocks i s) {b : BlockRecord}
    (hb : blocks[i]? = some b) : LaidOut env base blocks (i + 1) (layoutBlock env s i b) := by
  obtain ⟨hblocks, hnext, hmeshes, hlines, hmesh⟩ := h
  have hlen : i < blocks.length := by
    rcases List.getElem?_eq_some_iff.mp hb with ⟨hi, _⟩
    exact hi
  refine ⟨?_, ?_, ?_, ?_, ?_⟩
  · rw [layoutBlock_blocks, hblocks]
  · rw [layoutBlock_nextMesh, hnext]; omega
  · rw [layoutBlock_blockMeshes, hmeshes, hnext, List.range'_concat]; simp
  · rcases Nat.eq_zero_or_pos i with hi | hi
    · subst hi
      rw [layoutBlock_lines_zero, hlines]
    · obtain ⟨k, rfl⟩ : ∃ k, i = k + 1 := ⟨i - 1, by omega⟩
      have hprev : (s.blockMeshes ++ [s.nextMesh])[k]? = some (base + k) := by
        rw [hmeshes, List.getElem?_append_left (by simp)]
        simp [List.getElem?_range']
      obtain ⟨c, hc⟩ : ∃ c, blocks[k]? = some c :=
        ⟨blocks[k], List.getElem?_eq_getElem (by omega)⟩
      have hmk := hmesh k c (by omega) hc
      rw [layoutBlock_lines_succ env s k b (base + k) hprev (by omega), hlines, hmk, hblocks]
      simp [List.range_succ, newBlockMesh_position]
  · intro j c2 hj hc2
    rw [layoutBlock_meshes, hblocks]
    rcases Nat.lt_or_ge j i with hlt | hge
    · rw [Function.update_noteq (by omega)]
      exact hmesh j c2 hlt hc2
    · have hj1 : j = i := by omega
      subst hj1
      have hbc : b = c2 := by rw [hb] at hc2; exact Option.some.inj hc2
      subst hbc
      rw [hnext, Function.update_same]

theorem LaidOut.forEachFrom {env : Env} {base : Nat} {blocks : List BlockRecord}
    (rest : List BlockRecord) :
    ∀ (done : List BlockRecord) (s : Blockchain3D), blocks = done ++ rest →
      LaidOut env base blocks done.length s →
      LaidOut env base blocks blocks.length
        (Explorer.forEachFrom (layoutBlock env) done.length rest s) := by
  induction rest with
  | nil =>
    intro done s hsplit h
    have hlen : blocks.length = done.length := by rw [hsplit]; simp
    rw [hlen]
    exact h
  | cons b rest ih =>
    intro done s hsplit h
    have hb : blocks[done.length]? = some b := by
      rw [hsplit, List.getElem?_append_right (le_refl _)]
      simp
    have hstep := h.step hb
    have hsplit2 : blocks = (done ++ [b]) ++ rest := by rw [hsplit]; simp
    have := ih (done ++ [b]) (layoutBlock env s done.length b) hsplit2
      (by simpa using hstep)
    simpa [Explorer.forEachFrom] using this

theorem centerCameraOnChain_fields (s : Blockchain3D) :
    (centerCameraOnChain s).meshes = s.meshes
      ∧ (centerCameraOnChain s).nextMesh = s.nextMesh
      ∧ (centerCameraOnChain s).blockMeshes = s.blockMeshes
      ∧ (centerCameraOnChain s).connectionLines = s.connectionLines
      ∧ (centerCameraOnChain s).blocks = s.blocks
      ∧ (centerCameraOnChain s).selectedBlock = s.selectedBlock
      ∧ (centerCameraOnChain s).document = s.document := by
  unfold centerCameraOnChain
  split_ifs
  · simp
  · dsimp only
    split <;> simp

theorem createBlockchainVisualization_laidOut (env : Env) (s : Blockchain3D) :
    LaidOut env s.nextMesh s.blocks s.blocks.length (createBlockchainVisualization env s) := by
  have h0 : LaidOut env s.nextMesh s.blocks ([] : List BlockRecord).length (clearScene s) :=
    ⟨rfl, rfl, rfl, rfl, fun j b hj _ => absurd hj (Nat.not_lt_zero j)⟩
  have h := LaidOut.forEachFrom s.blocks [] (clearScene s) (by simp) h0
  obtain ⟨c1, c2, c3, c4, c5, _, _⟩ :=
    centerCameraOnChain_fields (forEach (clearScene s).blocks (layoutBlock env) (clearScene s))
  obtain ⟨h1, h2, h3, h4, h5⟩ := h
  exact ⟨c5.trans h1, c2.trans h2, c3.trans h3, c4.trans h4,
    fun j b hj hb => (congrFun c1 _).trans (h5 j b hj hb)⟩

theorem createBlockchainVisualization_blockMeshAt (env : Env) (s : Blockchain3D) (i : Nat)
    (b : BlockRecord) (hb : s.blocks[i]? = some b) :
    blockMeshAt (createBlockchainVisualization env s) i
      = some (newBlockMesh env s.blocks.length i b) := by
  have h := createBlockchainVisualization_laidOut env s
  have hi : i < s.blocks.length := (List.getElem?_eq_some_iff.mp hb).1
  unfold blockMeshAt
  rw [h.blockMeshes_eq, List.getElem?_range' _ _ hi]
  simp [h.mesh_eq i b hi hb]

/-- C1: after `createBlockchainVisualization`, whatever the state before (also one
holding meshes and lines of an earlier load), `blockMeshes` has exactly `N` elements
and `connectionLines` exactly `max(0, N - 1)`, `N` being the number of blocks. -/
theorem createBlockchainVisualization_counts (env : Env) (s : Blockchain3D) :
    (createBlockchainVisualization env s).blockMeshes.length = s.blocks.length
      ∧ ((createBlockchainVisualization env s).connectionLines.length : Int)
          = max 0 ((s.blocks.length : Int) - 1) := by
  have h := createBlockchainVisualization_laidOut env s
  refine ⟨?_, ?_⟩
  · rw [h.blockMeshes_eq]; simp
  · rw [h.lines_eq]
    simp only [List.length_map, List.length_range]
    omega

/-- C2: for `1 <= k <= N - 1`, connection line `k - 1` starts at the layout position
of the block at sequence position `k - 1` and ends at the layout position of the
block at sequence position `k`; no field of the blocks is consulted. -/
theorem connectionLine_joins_consecutive (env : Env) (s : Blockchain3D) (k : Nat)
    (h1 : 1 ≤ k) (hk : k < s.blocks.length) :
    ∃ m m', blockMeshAt (createBlockchainVisualization env s) (k - 1) = some m
      ∧ blockMeshAt (createBlockchainVisualization env s) k = some m'
      ∧ (createBlockchainVisualization env s).connectionLines[k - 1]?
          = some { start := m.position, stop := m'.position }
      ∧ m.position = blockPosition env s.blocks.length (k - 1)
      ∧ m'.position = blockPosition env s.blocks.length k := by
  have h := createBlockchainVisualization_laidOut env s
  have ha := createBlockchainVisualization_blockMeshAt env s (k - 1) (s.blocks[k - 1])
    (List.getElem?_eq_getElem (by omega))
  have hb := createBlockchainVisualization_blockMeshAt env s k (s.blocks[k])
    (List.getElem?_eq_getElem hk)
  refine ⟨_, _, ha, hb, ?_, rfl, rfl⟩
  rw [h.lines_eq, List.getElem?_map, List.getElem?_range (by omega)]
  simp only [Option.map_some', newBlockMesh_position]
  have hk1 : k - 1 + 1 = k := by omega
  rw [hk1]

/-- Witness of C2: the second line of a four-block chain. -/
theorem connectionLine_joins_consecutive_witness :
    1 ≤ 2 ∧ 2 < fourBlocks.blocks.length
      ∧ ∃ m m', blockMeshAt (createBlockchainVisualization sampleEnv fourBlocks) (2 - 1) = some m
        ∧ blockMeshAt (createBlockchainVisualization sampleEnv fourBlocks) 2 = some m'
        ∧ (createBlockchainVisualization sampleEnv fourBlocks).connectionLines[2 - 1]?
            = some { start := m.position, stop := m'.position }
        ∧ m.position = blockPosition sampleEnv fourBlocks.blocks.length (2 - 1)
        ∧ m'.position = blockPosition sampleEnv fourBlocks.blocks.length 2 :=
  ⟨by decide, by decide,
    connectionLine_joins_consecutive sampleEnv fourBlocks 2 (by decide) (by decide)⟩

/-- C3: the block at sequence position `i` gets `x = (i - N / 2) * 3` and `z = 0`;
adjacent blocks are exactly 3 apart in `x`, and `x` increases strictly with the
sequence position. -/
theorem layout_spacing (env : Env) (s : Blockchain3D) (i j : Nat) (hij : i < j)
    (hj : j < s.blocks.length) :
    ∃ m m' mj, blockMeshAt (createBlockchainVisualization env s) i = some m
      ∧ blockMeshAt (createBlockchainVisualization env s) (i + 1) = some m'
      ∧ blockMeshAt (createBlockchainVisualization env s) j = some mj
      ∧ m.position.x = ((i : ℚ) - (s.blocks.length : ℚ) / 2) * 3
      ∧ m'.position.x - m.position.x = 3
      ∧ m.position.x < mj.position.x
      ∧ m.position.z = 0 ∧ mj.position.z = 0 := by
  have ha := createBlockchainVisualization_blockMeshAt env s i (s.blocks[i])
    (List.getElem?_eq_getElem (by omega))
  have hb := createBlockchainVisualization_blockMeshAt env s (i + 1) (s.blocks[i + 1])
    (List.getElem?_eq_getElem (by omega))
  have hc := createBlockchainVisualization_blockMeshAt env s j (s.blocks[j])
    (List.getElem?_eq_getElem hj)
  refine ⟨_, _, _, ha, hb, hc, ?_, ?_, ?_, rfl, rfl⟩
  · simp [newBlockMesh, blockPosition, spacing]
  · simp only [newBlockMesh, blockPosition, spacing]
    push_cast
    ring
  · simp only [newBlockMesh, blockPosition, spacing]
    have hq : (i : ℚ) < (j : ℚ) := by exact_mod_cast hij
    linarith

/-- Witness of C3: positions 0 and 2 of a four-block chain. -/
theorem layout_spacing_witness :
    (0 : Nat) < 2 ∧ 2 < fourBlocks.blocks.length
      ∧ ∃ m m' mj, blockMeshAt (createBlockchainVisualization sampleEnv fourBlocks) 0 = some m
        ∧ blockMeshAt (createBlockchainVisualization sampleEnv fourBlocks) (0 + 1) = some m'
        ∧ blockMeshAt (createBlockchainVisualization sampleEnv fourBlocks) 2 = some mj
        ∧ m.position.x = (((0 : Nat) : ℚ) - (fourBlocks.blocks.length : ℚ) / 2) * 3
        ∧ m'.position.x - m.position.x = 3
        ∧ m.position.x < mj.position.x
        ∧ m.position.z = 0 ∧ mj.position.z = 0 :=
  ⟨by decide, by decide, layout_spacing sampleEnv fourBlocks 0 2 (by decide) (by decide)⟩

theorem isRecent_iff (length index : Nat) :
    isRecent length index = true ↔ (length : Int) - 3 ≤ (index : Int) := by
  simp [isRecent]

theorem blockColor_genesis_iff (block : BlockRecord) (length index : Nat) :
    blockColor block length index = 0x32CD32
      ↔ block.index = 0 ∧ (index : Int) < (length : Int) - 3 := by
  unfold blockColor
  by_cases hr : isRecent length index = true
  · have := (isRecent_iff length index).mp hr
    simp only [hr, if_true]
    constructor
    · intro h; exact absurd h (by decide)
    · intro h; omega
  · have hr2 : ¬ ((length : Int) - 3 ≤ (index : Int)) := fun h =>
      hr ((isRecent_iff length index).mpr h)
    by_cases hg : block.index = 0
    · simp [hr, isGenesis, hg]; omega
    · simp [hr, isGenesis, hg]

theorem blockColor_recent_iff (block : BlockRecord) (length index : Nat) :
    blockColor block length index = 0xFF6B6B ↔ (length : Int) - 3 ≤ (index : Int) := by
  unfold blockColor
  by_cases hr : isRecent length index = true
  · have := (isRecent_iff length index).mp hr
    simp [hr, this]
  · have hr2 : ¬ ((length : Int) - 3 ≤ (index : Int)) := fun h =>
      hr ((isRecent_iff length index).mpr h)
    by_cases hg : isGenesis block = true
    · simp [hr, hg, hr2]
    · simp [hr, hg, hr2]

/-- C4, as the code has it: the block at sequence position `i` gets the genesis
colour `0x32CD32` exactly when its `index` field is 0 and it is not among the last
three blocks (`i < N - 3`). -/
theorem genesis_colour_iff (env : Env) (s : Blockchain3D) (i : Nat) (b : BlockRecord)
    (hb : s.blocks[i]? = some b) :
    ∃ m, blockMeshAt (createBlockchainVisualization env s) i = some m
      ∧ (m.color = 0x32CD32 ↔ b.index = 0 ∧ (i : Int) < (s.blocks.length : Int) - 3) :=
  ⟨_, createBlockchainVisualization_blockMeshAt env s i b hb,
    blockColor_genesis_iff b s.blocks.length i⟩

/-- Witness of C4: in the chain of four blocks with indices 0, 1, 2, 3 the block at
position 0 is green. -/
theorem genesis_colour_iff_witness :
    fourBlocks.blocks[0]? = some (sampleBlock 0 0)
      ∧ ∃ m, blockMeshAt (createBlockchainVisualization sampleEnv fourBlocks) 0 = some m
        ∧ (m.color = 0x32CD32
            ↔ (sampleBlock 0 0).index = 0 ∧ ((0 : Nat) : Int) < (fourBlocks.blocks.length : Int) - 3) :=
  ⟨by decide, genesis_colour_iff sampleEnv fourBlocks 0 (sampleBlock 0 0) (by decide)⟩

/-- C4 as stated fails: with one block (index 0) the block at position 0 is not
green, and with the blocks fetched in the order 1, 0, 2, 3, 4 the block at
position 1 is green. -/
theorem genesis_position_counterexample :
    (¬ ∀ i m, blockMeshAt (createBlockchainVisualization sampleEnv oneBlock) i = some m →
        (m.color = 0x32CD32 ↔ i = 0))
      ∧ (¬ ∀ i m, blockMeshAt (createBlockchainVisualization sampleEnv swappedBlocks) i = some m →
        (m.color = 0x32CD32 ↔ i = 0)) := by
  constructor
  · intro h
    have h0 := (h 0 _ (createBlockchainVisualization_blockMeshAt sampleEnv oneBlock 0
      (sampleBlock 0 0) (by decide))).mpr rfl
    revert h0
    decide
  · intro h
    have h1 := (h 1 _ (createBlockchainVisualization_blockMeshAt sampleEnv swappedBlocks 1
      (sampleBlock 0 0) (by decide))).mp (by decide)
    revert h1
    decide

/-- C6, as the code has it: a block at position 0 with index 0 in a chain of at most
three blocks gets the recent colour `0xFF6B6B`, not the genesis colour. -/
theorem recent_overrides_genesis (env : Env) (s : Blockchain3D) (b : BlockRecord)
    (hN : s.blocks.length ≤ 3) (hb : s.blocks[0]? = some b) (hindex : b.index = 0) :
    isGenesis b = true ∧ isRecent s.blocks.length 0 = true
      ∧ ∃ m, blockMeshAt (createBlockchainVisualization env s) 0 = some m
        ∧ m.color = 0xFF6B6B ∧ m.color ≠ 0x32CD32 := by
  have hrec : ((s.blocks.length : Int) - 3 ≤ ((0 : Nat) : Int)) := by
    have : (s.blocks.length : Int) ≤ 3 := by exact_mod_cast hN
    simp only [Nat.cast_zero]
    omega
  have hcol := (blockColor_recent_iff b s.blocks.length 0).mpr hrec
  refine ⟨by simp [isGenesis, hindex], (isRecent_iff _ _).mpr hrec, _,
    createBlockchainVisualization_blockMeshAt env s 0 b hb, hcol, ?_⟩
  show blockColor b s.blocks.length 0 ≠ 0x32CD32
  rw [hcol]
  decide

/-- Witness of C6 as amended: the three-block chain. -/
theorem recent_overrides_genesis_witness :
    threeBlocks.blocks.length ≤ 3 ∧ threeBlocks.blocks[0]? = some (sampleBlock 0 0)
      ∧ (sampleBlock 0 0).index = 0
      ∧ isGenesis (sampleBlock 0 0) = true ∧ isRecent threeBlocks.blocks.length 0 = true
      ∧ ∃ m, blockMeshAt (createBlockchainVisualization sampleEnv threeBlocks) 0 = some m
        ∧ m.color = 0xFF6B6B ∧ m.color ≠ 0x32CD32 :=
  ⟨by decide, by decide, by decide,
    recent_overrides_genesis sampleEnv threeBlocks (sampleBlock 0 0) (by decide) (by decide)
      (by decide)⟩

/-- C6 as stated fails: in the three-block chain the block at position 0 has index 0
and is eligible for both stylings, and its colour is not the genesis colour. -/
theorem genesis_wins_counterexample :
    isGenesis (sampleBlock 0 0) = true ∧ isRecent threeBlocks.blocks.length 0 = true
      ∧ threeBlocks.blocks[0]? = some (sampleBlock 0 0)
      ∧ ¬ ∃ m, blockMeshAt (createBlockchainVisualization sampleEnv threeBlocks) 0 = some m
          ∧ m.color = 0x32CD32 := by
  refine ⟨by decide, by decide, by decide, ?_⟩
  rintro ⟨m, hm, hcolor⟩
  rw [createBlockchainVisualization_blockMeshAt sampleEnv threeBlocks 0 (sampleBlock 0 0)
    (by decide)] at hm
  have hm2 := Option.some.inj hm
  subst hm2
  revert hcolor
  decide

theorem forEachFrom_animateBlock (env : Env) (time : ℚ) (ids : List Nat) :
    ∀ (i : Nat) (s : Blockchain3D), ids.Nodup →
      (forEachFrom (animateBlock env time) i ids s).blockMeshes = s.blockMeshes
      ∧ (∀ id, id ∉ ids → (forEachFrom (animateBlock env time) i ids s).meshes id = s.meshes id)
      ∧ (∀ j id, ids[j]? = some id →
          (forEachFrom (animateBlock env time) i ids s).meshes id
            = animatedMesh env time s.blockMeshes.length (i + j) (s.meshes id)) := by
  induction ids with
  | nil =>
    intro i s _
    simp [forEachFrom]
  | cons a rest ih =>
    intro i s hnodup
    obtain ⟨hnotin, hrest⟩ := List.nodup_cons.mp hnodup
    obtain ⟨ih1, ih2, ih3⟩ := ih (i + 1) (animateBlock env time s i a) hrest
    have hbm : (animateBlock env time s i a).blockMeshes = s.blockMeshes := rfl
    have hms : (animateBlock env time s i a).meshes
        = Function.update s.meshes a
            (animatedMesh env time s.blockMeshes.length i (s.meshes a)) := rfl
    refine ⟨?_, ?_, ?_⟩
    · simp only [forEachFrom]
      rw [ih1, hbm]
    · intro id hid
      simp only [forEachFrom]
      have hne : id ≠ a := fun h => hid (h ▸ List.mem_cons_self _ _)
      have hnr : id ∉ rest := fun h => hid (List.mem_cons_of_mem _ h)
      rw [ih2 id hnr, hms, Function.update_noteq hne]
    · intro j id hj
      simp only [forEachFrom]
      cases j with
      | zero =>
        have hid : a = id := by simpa using hj
        subst hid
        rw [ih2 a hnotin, hms, Function.update_same]
        simp
      | succ j =>
        have hj2 : rest[j]? = some id := by simpa using hj
        have hmem : id ∈ rest := List.getElem?_mem hj2
        have hne : id ≠ a := fun h => hnotin (h ▸ hmem)
        rw [ih3 j id hj2, hbm, hms, Function.update_noteq hne]
        have hidx : i + 1 + j = i + (j + 1) := by omega
        rw [hidx]

theorem animateBlocks_blockMeshAt (env : Env) (time : ℚ) (s : Blockchain3D)
    (hnodup : s.blockMeshes.Nodup) (i : Nat) (m : Mesh) (hm : blockMeshAt s i = some m) :
    blockMeshAt (animateBlocks env time s) i
      = some (animatedMesh env time s.blockMeshes.length i m) := by
  obtain ⟨h1, _, h3⟩ := forEachFrom_animateBlock env time s.blockMeshes 0 s hnodup
  unfold blockMeshAt at hm ⊢
  unfold animateBlocks forEach
  rw [h1]
  cases hid : s.blockMeshes[i]? with
  | none => rw [hid] at hm; simp at hm
  | some id =>
    rw [hid] at hm
    have hmid : s.meshes id = m := by simpa using hm
    simp only [Option.map_some']
    rw [h3 i id hid, hmid, Nat.zero_add]

theorem animatedMesh_emissive (env : Env) (time : ℚ) (length index : Nat) (m : Mesh) :
    (animatedMesh env time length index m).emissive
      = if (length : Int) - 3 ≤ (index : Int) then pulseColor env time else m.emissive := by
  unfold animatedMesh
  by_cases hr : isRecent length index = true
  · have := (isRecent_iff length index).mp hr
    simp [hr, this]
  · have hr2 : ¬ ((length : Int) - 3 ≤ (index : Int)) := fun h =>
      hr ((isRecent_iff length index).mpr h)
    simp [hr, hr2]

/-- C5: the block at sequence position `i` gets the recent colour `0xFF6B6B` at
layout exactly when `i >= N - 3` (so every block does when `N <= 3`).  Every block
is laid out with the emissive colour `0x000000`, and a frame of `animateBlocks`
after the layout gives the block the pulse
`setRGB(0.1 * pulse, 0.1 * pulse, 0.3 * pulse)`, `pulse = sin(time * 3) * 0.1 + 1`,
exactly when `i >= N - 3`, and leaves the emissive colour `0x000000` exactly when
`i < N - 3`; the pulse has positive components for a sine of at least -1. -/
theorem recent_styling_iff (env : Env) (time : ℚ) (s : Blockchain3D) (i : Nat)
    (hi : i < s.blocks.length) :
    ∃ m m', blockMeshAt (createBlockchainVisualization env s) i = some m
      ∧ (m.color = 0xFF6B6B ↔ (s.blocks.length : Int) - 3 ≤ (i : Int))
      ∧ (s.blocks.length ≤ 3 → m.color = 0xFF6B6B)
      ∧ blockMeshAt (animateBlocks env time (createBlockchainVisualization env s)) i = some m'
      ∧ m'.emissive = (if (s.blocks.length : Int) - 3 ≤ (i : Int) then pulseColor env time
                        else m.emissive)
      ∧ m.emissive = Color.hex 0x000000
      ∧ (m'.emissive = Color.rgb (0.1 * (env.sin (time * 3) * 0.1 + 1))
            (0.1 * (env.sin (time * 3) * 0.1 + 1)) (0.3 * (env.sin (time * 3) * 0.1 + 1))
          ↔ (s.blocks.length : Int) - 3 ≤ (i : Int))
      ∧ (m'.emissive = Color.hex 0x000000 ↔ (i : Int) < (s.blocks.length : Int) - 3)
      ∧ (-1 ≤ env.sin (time * 3) →
          0 < 0.1 * (env.sin (time * 3) * 0.1 + 1)
            ∧ 0 < 0.3 * (env.sin (time * 3) * 0.1 + 1)) := by
  have h := createBlockchainVisualization_laidOut env s
  have hm := createBlockchainVisualization_blockMeshAt env s i (s.blocks[i])
    (List.getElem?_eq_getElem hi)
  have hnodup : (createBlockchainVisualization env s).blockMeshes.Nodup := by
    rw [h.blockMeshes_eq]
    exact List.nodup_range' _ _
  have hlen : (createBlockchainVisualization env s).blockMeshes.length = s.blocks.length := by
    rw [h.blockMeshes_eq]; simp
  have ha := animateBlocks_blockMeshAt env time _ hnodup i _ hm
  rw [hlen] at ha
  have hem := animatedMesh_emissive env time s.blocks.length i
    (newBlockMesh env s.blocks.length i (s.blocks[i]))
  have hblack : (newBlockMesh env s.blocks.length i (s.blocks[i])).emissive
      = Color.hex 0x000000 := rfl
  have hpulse : pulseColor env time
      = Color.rgb (0.1 * (env.sin (time * 3) * 0.1 + 1))
          (0.1 * (env.sin (time * 3) * 0.1 + 1)) (0.3 * (env.sin (time * 3) * 0.1 + 1)) := rfl
  refine ⟨_, _, hm, blockColor_recent_iff _ _ _, ?_, ha, hem, hblack, ?_, ?_, ?_⟩
  · intro h3
    refine (blockColor_recent_iff (s.blocks[i]) s.blocks.length i).mpr ?_
    have : (s.blocks.length : Int) ≤ 3 := by exact_mod_cast h3
    omega
  · rw [hem, hblack, hpulse]
    by_cases hr : (s.blocks.length : Int) - 3 ≤ (i : Int)
    · simp [hr]
    · simp [hr]
  · rw [hem, hblack, hpulse]
    by_cases hr : (s.blocks.length : Int) - 3 ≤ (i : Int)
    · simp [hr]
    · simp only [hr, if_false, true_iff]
      omega
  · intro hsin
    constructor <;> nlinarith

/-- Witness of C5: position 1 of the four-block chain. -/
theorem recent_styling_iff_witness :
    1 < fourBlocks.blocks.length
      ∧ ∃ m m', blockMeshAt (createBlockchainVisualization sampleEnv fourBlocks) 1 = some m
        ∧ (m.color = 0xFF6B6B ↔ (fourBlocks.blocks.length : Int) - 3 ≤ ((1 : Nat) : Int))
        ∧ (fourBlocks.blocks.length ≤ 3 → m.color = 0xFF6B6B)
        ∧ blockMeshAt (animateBlocks sampleEnv 0 (createBlockchainVisualization sampleEnv fourBlocks)) 1
            = some m'
        ∧ m'.emissive = (if (fourBlocks.blocks.length : Int) - 3 ≤ ((1 : Nat) : Int)
                          then pulseColor sampleEnv 0 else m.emissive)
        ∧ m.emissive = Color.hex 0x000000
        ∧ (m'.emissive = Color.rgb (0.1 * (sampleEnv.sin (0 * 3) * 0.1 + 1))
              (0.1 * (sampleEnv.sin (0 * 3) * 0.1 + 1)) (0.3 * (sampleEnv.sin (0 * 3) * 0.1 + 1))
            ↔ (fourBlocks.blocks.length : Int) - 3 ≤ ((1 : Nat) : Int))
        ∧ (m'.emissive = Color.hex 0x000000
            ↔ ((1 : Nat) : Int) < (fourBlocks.blocks.length : Int) - 3)
        ∧ (-1 ≤ sampleEnv.sin (0 * 3) →
            0 < 0.1 * (sampleEnv.sin (0 * 3) * 0.1 + 1)
              ∧ 0 < 0.3 * (sampleEnv.sin (0 * 3) * 0.1 + 1)) :=
  ⟨by decide, recent_styling_iff sampleEnv 0 fourBlocks 1 (by decide)⟩

theorem foldl_add_eq_sum {α : Type} (f : α → Nat) (xs : List α) :
    ∀ a : Nat, xs.foldl (fun sum x => sum + f x) a = a + (xs.map f).sum := by
  induction xs with
  | nil => intro a; simp
  | cons x rest ih =>
    intro a
    simp only [List.foldl_cons, List.map_cons, List.sum_cons]
    rw [ih]
    omega

theorem totalTransactions_eq_sum (blocks : List BlockRecord) :
    totalTransactions blocks = (blocks.map (fun b => b.transactions.length)).sum := by
  unfold totalTransactions
  rw [foldl_add_eq_sum]
  simp

theorem updateElement_document (s : Blockchain3D) (id : String) (value : Nat) (k : String) :
    (updateElement s id value).document k
      = if k = id then (s.document id).map (fun _ => toString value) else s.document k := by
  unfold updateElement
  cases h : s.document id with
  | none =>
    by_cases hk : k = id
    · simp [hk, h]
    · simp [hk]
  | some c =>
    by_cases hk : k = id
    · subst hk
      simp
    · simp [hk, Function.update_noteq hk]

/-- C7: `updateStatistics` writes the sum of `transactions.length` over the blocks
to `total-transactions` and the number of blocks to `total-blocks` and to
`chain-length` (each where the page has the element); what is written is a function
of the current block list alone. -/
theorem updateStatistics_writes (s : Blockchain3D) :
    (updateStatistics s).document "total-transactions"
        = (s.document "total-transactions").map
            (fun _ => toString ((s.blocks.map (fun b => b.transactions.length)).sum))
      ∧ (updateStatistics s).document "total-blocks"
        = (s.document "total-blocks").map (fun _ => toString s.blocks.length)
      ∧ (updateStatistics s).document "chain-length"
        = (s.document "chain-length").map (fun _ => toString s.blocks.length) := by
  have h1 : ¬ "total-transactions" = "total-blocks" := by decide
  have h2 : ¬ "chain-length" = "total-transactions" := by decide
  have h3 : ¬ "chain-length" = "total-blocks" := by decide
  unfold updateStatistics
  simp only [updateElement_document, totalTransactions_eq_sum]
  refine ⟨?_, ?_, ?_⟩ <;> simp [h1, h2, h3]

/-- The example of C7: five blocks with 2, 0, 1, 3 and 0 transactions give the total
6 and the block count 5. -/
theorem updateStatistics_writes_witness :
    (updateStatistics fiveBlocks).document "total-transactions" = some "6"
      ∧ (updateStatistics fiveBlocks).document "total-blocks" = some "5"
      ∧ (updateStatistics fiveBlocks).document "chain-length" = some "5" := by
  obtain ⟨h1, h2, h3⟩ := updateStatistics_writes fiveBlocks
  exact ⟨h1.trans (by decide), h2.trans (by decide), h3.trans (by decide)⟩

theorem forLoop_succ {σ : Type} (n : Nat) (body : σ → Nat → σ) (s : σ) :
    forLoop (n + 1) body s = body (forLoop n body s) n := by
  simp [forLoop, List.range_succ, List.foldl_append]

theorem forLoop_measure {σ : Type} (measure : σ → Nat) (body : σ → Nat → σ)
    (h : ∀ acc i, measure (body acc i) = measure acc + 1) (s : σ) :
    ∀ n, measure (forLoop n body s) = measure s + n := by
  intro n
  induction n with
  | zero => simp [forLoop]
  | succ n ih => rw [forLoop_succ, h, ih]; omega

/-- C8: on a page that has the container, `initCredits3D` stores
`min(floor(creditAmount / 10), 10)` coins, `initCertificates3D` stores
`min(certificateCount, 5)` cards and `initBlocks3D` stores `min(blockCount, 6)`
cubes; the counts are at most 10, 5 and 6. -/
theorem widget_counts_clamped (env : Env) (document : String → Option String)
    (d : Dashboard3D) (containerId content : String)
    (hcontainer : document containerId = some content) (n : Nat) :
    (∃ w, initCredits3D document d containerId n containerId = some w
        ∧ w.items.length = min (n / 10) 10 ∧ w.items.length ≤ 10)
      ∧ (∃ w, initCertificates3D document d containerId n containerId = some w
        ∧ w.items.length = min n 5 ∧ w.items.length ≤ 5)
      ∧ (∃ w, initBlocks3D env document d containerId n containerId = some w
        ∧ w.items.length = min n 6 ∧ w.items.length ≤ 6) := by
  refine ⟨?_, ?_, ?_⟩
  · refine ⟨_, by simp [initCredits3D, hcontainer]; rfl, ?_, ?_⟩
    · show List.length (forLoop (maxCoins n) _ []) = _
      rw [forLoop_measure List.length _ (by intro acc i; simp)]
      simp [maxCoins]
    · show List.length (forLoop (maxCoins n) _ []) ≤ _
      rw [forLoop_measure List.length _ (by intro acc i; simp)]
      simp only [maxCoins, List.length_nil, Nat.zero_add]
      exact Nat.min_le_right _ _
  · refine ⟨_, by simp [initCertificates3D, hcontainer]; rfl, ?_, ?_⟩
    · show List.length (forLoop (maxCards n) _ []) = _
      rw [forLoop_measure List.length _ (by intro acc i; simp)]
      simp [maxCards]
    · show List.length (forLoop (maxCards n) _ []) ≤ _
      rw [forLoop_measure List.length _ (by intro acc i; simp)]
      simp only [maxCards, List.length_nil, Nat.zero_add]
      exact Nat.min_le_right _ _
  · refine ⟨_, by simp [initBlocks3D, hcontainer]; rfl, ?_, ?_⟩
    · show List.length (Prod.fst (forLoop (maxCubes n) _ ([], []))) = _
      rw [forLoop_measure (fun acc : List Item × List Line => acc.1.length) _
        (by intro acc i; simp)]
      simp [maxCubes]
    · show List.length (Prod.fst (forLoop (maxCubes n) _ ([], []))) ≤ _
      rw [forLoop_measure (fun acc : List Item × List Line => acc.1.length) _
        (by intro acc i; simp)]
      simp only [maxCubes, List.length_nil, Nat.zero_add]
      exact Nat.min_le_right _ _

/-- Witness of C8: a magnitude of 250 on a page with the `credits-3d` container. -/
theorem widget_counts_clamped_witness :
    dashboardPage "credits-3d" = some ""
      ∧ (∃ w, initCredits3D dashboardPage emptyDashboard "credits-3d" 250 "credits-3d" = some w
          ∧ w.items.length = min (250 / 10) 10 ∧ w.items.length ≤ 10)
      ∧ (∃ w, initCertificates3D dashboardPage emptyDashboard "credits-3d" 250 "credits-3d"
            = some w
          ∧ w.items.length = min 250 5 ∧ w.items.length ≤ 5)
      ∧ (∃ w, initBlocks3D sampleEnv dashboardPage emptyDashboard "credits-3d" 250 "credits-3d"
            = some w
          ∧ w.items.length = min 250 6 ∧ w.items.length ≤ 6) :=
  ⟨by decide,
    widget_counts_clamped sampleEnv dashboardPage emptyDashboard "credits-3d" "" (by decide) 250⟩

theorem Mesh.neutral_neutral (m : Mesh) : m.neutral.neutral = m.neutral := rfl

theorem Mesh.emphasised_neutral (m : Mesh) : m.neutral.emphasised = m.emphasised := rfl

theorem Mesh.emphasised_emphasised (m : Mesh) : m.emphasised.emphasised = m.emphasised := rfl

theorem Mesh.neutral_emphasised (m : Mesh) : m.emphasised.neutral = m.neutral := rfl

theorem forEachFrom_resetMesh (ids : List Nat) :
    ∀ (i : Nat) (s : Blockchain3D),
      forEachFrom resetMesh i ids s
        = { s with meshes := fun id => if id ∈ ids then (s.meshes id).neutral else s.meshes id } := by
  induction ids with
  | nil => intro i s; simp [forEachFrom]
  | cons a rest ih =>
    intro i s
    simp only [forEachFrom]
    rw [ih]
    simp only [resetMesh]
    congr 1
    funext id
    by_cases ha : id = a
    · subst ha
      by_cases hr : id ∈ rest
      · simp [hr, Mesh.neutral_neutral]
      · simp [hr]
    · by_cases hr : id ∈ rest
      · simp [hr, ha, Function.update_noteq ha]
      · simp [hr, ha, Function.update_noteq ha]

theorem showBlockDetails_fields (env : Env) (s : Blockchain3D) (block : BlockRecord) :
    (showBlockDetails env s block).meshes = s.meshes
      ∧ (showBlockDetails env s block).blockMeshes = s.blockMeshes
      ∧ (showBlockDetails env s block).selectedBlock = s.selectedBlock := by
  unfold showBlockDetails
  split <;> simp

theorem focusOnBlock_fields (s : Blockchain3D) (blockMesh : Nat) (elapsed : ℚ) :
    (focusOnBlock s blockMesh elapsed).meshes = s.meshes
      ∧ (focusOnBlock s blockMesh elapsed).blockMeshes = s.blockMeshes
      ∧ (focusOnBlock s blockMesh elapsed).selectedBlock = s.selectedBlock :=
  ⟨rfl, rfl, rfl⟩

theorem selectBlock_fields (env : Env) (s : Blockchain3D) (b : Nat) (elapsed : ℚ) :
    (selectBlock env s b elapsed).selectedBlock = some b
      ∧ (selectBlock env s b elapsed).blockMeshes = s.blockMeshes
      ∧ (selectBlock env s b elapsed).meshes
          = fun id => if id = b then (s.meshes b).emphasised
                      else if id ∈ s.blockMeshes then (s.meshes id).neutral else s.meshes id := by
  unfold selectBlock forEach
  simp only [forEachFrom_resetMesh]
  refine ⟨?_, ?_, ?_⟩
  · rw [(focusOnBlock_fields _ _ _).2.2, (showBlockDetails_fields _ _ _).2.2]
  · rw [(focusOnBlock_fields _ _ _).2.1, (showBlockDetails_fields _ _ _).2.1]
  · rw [(focusOnBlock_fields _ _ _).1, (showBlockDetails_fields _ _ _).1]
    funext id
    by_cases hb : id = b
    · subst hb
      by_cases hmem : id ∈ s.blockMeshes
      · simp [hmem, Mesh.emphasised_neutral]
      · simp [hmem]
    · simp [hb, Function.update_noteq hb]

/-- C9: after `selectBlock(b)` the selection is `b`, `b` has emissive `0x444444` and
scale `(1.1, 1.1, 1.1)`, and every other mesh `m` of `blockMeshes` has emissive
`0x000000` and scale `(1, 1, 1)`; `blockMeshes` itself is unchanged.  So only `b`
carries the emphasis, and a previously selected mesh of `blockMeshes` loses it. -/
theorem selectBlock_single_emphasis (env : Env) (s : Blockchain3D) (b m : Nat) (elapsed : ℚ)
    (hb : b ∈ s.blockMeshes) (hm : m ∈ s.blockMeshes) (hne : m ≠ b) :
    (selectBlock env s b elapsed).selectedBlock = some b
      ∧ (selectBlock env s b elapsed).blockMeshes = s.blockMeshes
      ∧ b ∈ (selectBlock env s b elapsed).blockMeshes
      ∧ ((selectBlock env s b elapsed).meshes b).emissive = Color.hex 0x444444
      ∧ ((selectBlock env s b elapsed).meshes b).scale = ⟨1.1, 1.1, 1.1⟩
      ∧ ((selectBlock env s b elapsed).meshes m).emissive = Color.hex 0x000000
      ∧ ((selectBlock env s b elapsed).meshes m).scale = ⟨1, 1, 1⟩ := by
  obtain ⟨h1, h2, h3⟩ := selectBlock_fields env s b elapsed
  refine ⟨h1, h2, h2 ▸ hb, ?_, ?_, ?_, ?_⟩
  · rw [h3]; simp [Mesh.emphasised]
  · rw [h3]; simp [Mesh.emphasised]
  · rw [h3]; simp [hne, hm, Mesh.neutral]
  · rw [h3]; simp [hne, hm, Mesh.neutral]

/-- Witness of C9: in the laid-out four-block chain with mesh 1 selected, select
mesh 2 and look at mesh 1. -/
theorem selectBlock_single_emphasis_witness :
    2 ∈ selectedChain.blockMeshes ∧ 1 ∈ selectedChain.blockMeshes ∧ (1 : Nat) ≠ 2
      ∧ (selectBlock sampleEnv selectedChain 2 0).selectedBlock = some 2
      ∧ (selectBlock sampleEnv selectedChain 2 0).blockMeshes = selectedChain.blockMeshes
      ∧ 2 ∈ (selectBlock sampleEnv selectedChain 2 0).blockMeshes
      ∧ ((selectBlock sampleEnv selectedChain 2 0).meshes 2).emissive = Color.hex 0x444444
      ∧ ((selectBlock sampleEnv selectedChain 2 0).meshes 2).scale = ⟨1.1, 1.1, 1.1⟩
      ∧ ((selectBlock sampleEnv selectedChain 2 0).meshes 1).emissive = Color.hex 0x000000
      ∧ ((selectBlock sampleEnv selectedChain 2 0).meshes 1).scale = ⟨1, 1, 1⟩ :=
  ⟨by decide, by decide, by decide,
    selectBlock_single_emphasis sampleEnv selectedChain 2 1 0 (by decide) (by decide)
      (by decide)⟩

/-- C10: selecting the same mesh twice in succession leaves the selection and every
mesh (emissive colour and scale included) as after the first selection; the scale of
the selected mesh is `1.1` in each coordinate, not `1.21`. -/
theorem selectBlock_idempotent (env : Env) (s : Blockchain3D) (b : Nat) (e1 e2 : ℚ) :
    (selectBlock env (selectBlock env s b e1) b e2).selectedBlock
        = (selectBlock env s b e1).selectedBlock
      ∧ (selectBlock env (selectBlock env s b e1) b e2).blockMeshes
        = (selectBlock env s b e1).blockMeshes
      ∧ (∀ id, ((selectBlock env (selectBlock env s b e1) b e2).meshes id).emissive
                  = ((selectBlock env s b e1).meshes id).emissive
            ∧ ((selectBlock env (selectBlock env s b e1) b e2).meshes id).scale
                  = ((selectBlock env s b e1).meshes id).scale)
      ∧ (selectBlock env (selectBlock env s b e1) b e2).meshes
        = (selectBlock env s b e1).meshes
      ∧ ((selectBlock env (selectBlock env s b e1) b e2).meshes b).scale = ⟨1.1, 1.1, 1.1⟩ := by
  obtain ⟨h1, h2, h3⟩ := selectBlock_fields env s b e1
  obtain ⟨k1, k2, k3⟩ := selectBlock_fields env (selectBlock env s b e1) b e2
  have hmeshes : (selectBlock env (selectBlock env s b e1) b e2).meshes
      = (selectBlock env s b e1).meshes := by
    rw [k3, h2, h3]
    funext id
    by_cases hb : id = b
    · simp [hb, Mesh.emphasised_emphasised]
    · by_cases hmem : id ∈ s.blockMeshes
      · simp [hb, hmem, Mesh.neutral_neutral]
      · simp [hb, hmem]
  refine ⟨k1.trans h1.symm, k2, fun id => ?_, hmeshes, ?_⟩
  · rw [hmeshes]
    exact ⟨rfl, rfl⟩
  · rw [hmeshes, h3]
    simp [Mesh.emphasised]

theorem showError_fields (s : Blockchain3D) (message : String) :
    (showError s message).meshes = s.meshes
      ∧ (showError s message).nextMesh = s.nextMesh
      ∧ (showError s message).camera = s.camera
      ∧ (showError s message).controls = s.controls
      ∧ (showError s message).blockMeshes = s.blockMeshes
      ∧ (showError s message).connectionLines = s.connectionLines
      ∧ (showError s message).blocks = s.blocks
      ∧ (showError s message).selectedBlock = s.selectedBlock := by
  unfold showError
  split <;> simp

theorem showError_document (s : Blockchain3D) (message : String) (k : String) :
    (showError s message).document k
      = if k = "block-info" then (s.document "block-info").map (fun _ => errorHtml message)
        else s.document k := by
  unfold showError
  cases h : s.document "block-info" with
  | none =>
    by_cases hk : k = "block-info"
    · simp [hk, h]
    · simp [hk]
  | some c =>
    by_cases hk : k = "block-info"
    · subst hk
      simp
    · simp [hk, Function.update_noteq hk]

theorem loadBlockchainData_failed (env : Env) (s : Blockchain3D) (fetched : FetchResult)
    (hfail : fetched = FetchResult.rejected
      ∨ ∃ status json, fetched = FetchResult.response false status json) :
    loadBlockchainData env s fetched = showError s "Failed to load blockchain data" := by
  rcases hfail with h | ⟨status, json, h⟩ <;> subst h <;> rfl

/-- C11: when the fetch rejects or the response is not `ok`, `loadBlockchainData`
leaves the block list, `blockMeshes`, `connectionLines`, the selection, the mesh
heap (no layout), the three counters and the table body as they were; indeed every
element other than the `block-info` panel keeps its content. -/
theorem failed_load_keeps_state (env : Env) (s : Blockchain3D) (fetched : FetchResult)
    (hfail : fetched = FetchResult.rejected
      ∨ ∃ status json, fetched = FetchResult.response false status json) :
    (loadBlockchainData env s fetched).blocks = s.blocks
      ∧ (loadBlockchainData env s fetched).blockMeshes = s.blockMeshes
      ∧ (loadBlockchainData env s fetched).connectionLines = s.connectionLines
      ∧ (loadBlockchainData env s fetched).selectedBlock = s.selectedBlock
      ∧ (loadBlockchainData env s fetched).meshes = s.meshes
      ∧ (loadBlockchainData env s fetched).nextMesh = s.nextMesh
      ∧ (loadBlockchainData env s fetched).camera = s.camera
      ∧ (loadBlockchainData env s fetched).document "total-blocks" = s.document "total-blocks"
      ∧ (loadBlockchainData env s fetched).document "total-transactions"
          = s.document "total-transactions"
      ∧ (loadBlockchainData env s fetched).document "chain-length" = s.document "chain-length"
      ∧ (loadBlockchainData env s fetched).document "#blocks-table tbody"
          = s.document "#blocks-table tbody"
      ∧ ∀ k, k ≠ "block-info" → (loadBlockchainData env s fetched).document k = s.document k := by
  rw [loadBlockchainData_failed env s fetched hfail]
  obtain ⟨h1, h2, h3, _, h5, h6, h7, h8⟩ := showError_fields s "Failed to load blockchain data"
  have hdoc : ∀ k, k ≠ "block-info" →
      (showError s "Failed to load blockchain data").document k = s.document k := by
    intro k hk
    rw [showError_document, if_neg hk]
  exact ⟨h7, h5, h6, h8, h1, h2, h3, hdoc _ (by decide), hdoc _ (by decide),
    hdoc _ (by decide), hdoc _ (by decide), hdoc⟩

/-- Witness of C11: a response with status 500 arriving while the four-block chain
is laid out with a mesh selected. -/
theorem failed_load_keeps_state_witness :
    (FetchResult.response false 500 none = FetchResult.rejected
        ∨ ∃ status json, FetchResult.response false 500 none
            = FetchResult.response false status json)
      ∧ (loadBlockchainData sampleEnv selectedChain (FetchResult.response false 500 none)).blocks
          = selectedChain.blocks
      ∧ (loadBlockchainData sampleEnv selectedChain
            (FetchResult.response false 500 none)).selectedBlock
          = selectedChain.selectedBlock :=
  have h := failed_load_keeps_state sampleEnv selectedChain (FetchResult.response false 500 none)
    (Or.inr ⟨500, none, rfl⟩)
  ⟨Or.inr ⟨500, none, rfl⟩, h.1, h.2.2.2.1⟩

/-- C12, as the code has it: a load that gets a response that is not `ok` leaves the
three block-count elements as they were, and the `block-info` panel, where the page
has it, gets the error view with the retry button. -/
theorem failed_load_views (env : Env) (s : Blockchain3D) (status : Nat)
    (json : Option (List BlockRecord)) :
    (loadBlockchainData env s (FetchResult.response false status json)).document "total-blocks"
        = s.document "total-blocks"
      ∧ (loadBlockchainData env s (FetchResult.response false status json)).document
          "total-transactions" = s.document "total-transactions"
      ∧ (loadBlockchainData env s (FetchResult.response false status json)).document
          "chain-length" = s.document "chain-length"
      ∧ (loadBlockchainData env s (FetchResult.response false status json)).document "block-info"
        = (s.document "block-info").map (fun _ => errorHtml "Failed to load blockchain data") := by
  rw [loadBlockchainData_failed env s _ (Or.inr ⟨status, json, rfl⟩)]
  simp only [showError_document]
  refine ⟨?_, ?_, ?_, ?_⟩
  · rw [if_neg (by decide)]
  · rw [if_neg (by decide)]
  · rw [if_neg (by decide)]
  · simp

/-- C12 as stated fails: with the details of a selected block in the `block-info`
panel, a response with status 500 changes the content of the panel. -/
theorem detail_view_counterexample :
    (loadBlockchainData sampleEnv selectedChain (FetchResult.response false 500 none)).document
        "block-info"
      ≠ selectedChain.document "block-info" := by
  decide

theorem centerCameraOnChain_camera (t : Blockchain3D) (h : t.blocks.length ≠ 0) :
    (centerCameraOnChain t).camera.position
        = ⟨(((t.blocks.length : ℚ) - 1) * 3) / 2 - ((t.blocks.length : ℚ) / 2) * 3, 5, 10⟩
      ∧ (centerCameraOnChain t).camera.lookAt
        = some ⟨(((t.blocks.length : ℚ) - 1) * 3) / 2 - ((t.blocks.length : ℚ) / 2) * 3, 0, 0⟩ := by
  unfold centerCameraOnChain
  rw [if_neg h]
  dsimp only
  split <;> exact ⟨rfl, rfl⟩

theorem createBlockchainVisualization_camera (env : Env) (s : Blockchain3D)
    (h : 1 ≤ s.blocks.length) :
    (createBlockchainVisualization env s).camera.position
        = ⟨(((s.blocks.length : ℚ) - 1) * 3) / 2 - ((s.blocks.length : ℚ) / 2) * 3, 5, 10⟩
      ∧ (createBlockchainVisualization env s).camera.lookAt
        = some ⟨(((s.blocks.length : ℚ) - 1) * 3) / 2 - ((s.blocks.length : ℚ) / 2) * 3, 0, 0⟩ := by
  have h0 : LaidOut env s.nextMesh s.blocks ([] : List BlockRecord).length (clearScene s) :=
    ⟨rfl, rfl, rfl, rfl, fun j b hj _ => absurd hj (Nat.not_lt_zero j)⟩
  have hl := LaidOut.forEachFrom s.blocks [] (clearScene s) (by simp) h0
  have hblocks := hl.blocks_eq
  have hc := centerCameraOnChain_camera
    (forEachFrom (layoutBlock env) ([] : List BlockRecord).length s.blocks (clearScene s))
    (by rw [hblocks]; omega)
  rw [hblocks] at hc
  exact hc

theorem sum_blockPosition_x (c : ℚ) (n : Nat) :
    ((List.range n).map (fun i : Nat => ((i : ℚ) - c) * 3)).sum
      = 3 * ((n : ℚ) * ((n : ℚ) - 1) / 2 - (n : ℚ) * c) := by
  induction n with
  | zero => simp
  | succ n ih =>
    rw [List.range_succ, List.map_append, List.sum_append, ih]
    simp only [List.map_cons, List.map_nil, List.sum_cons, List.sum_nil]
    push_cast
    ring

/-- C13: for `N >= 1` blocks the camera is put at, and directed at, the abscissa
`((N - 1) * 3) / 2 - (N / 2) * 3`, which is the midpoint of the abscissas of the first
and of the last laid-out block and the mean of the abscissas `(i - N / 2) * 3` of all
blocks. -/
theorem camera_centre_is_layout_centre (env : Env) (s : Blockchain3D)
    (h : 1 ≤ s.blocks.length) :
    ∃ first last,
      blockMeshAt (createBlockchainVisualization env s) 0 = some first
      ∧ blockMeshAt (createBlockchainVisualization env s) (s.blocks.length - 1) = some last
      ∧ (createBlockchainVisualization env s).camera.position.x
          = (((s.blocks.length : ℚ) - 1) * 3) / 2 - ((s.blocks.length : ℚ) / 2) * 3
      ∧ (createBlockchainVisualization env s).camera.lookAt
          = some ⟨(createBlockchainVisualization env s).camera.position.x, 0, 0⟩
      ∧ (createBlockchainVisualization env s).camera.position.x
          = (first.position.x + last.position.x) / 2
      ∧ (createBlockchainVisualization env s).camera.position.x
          = ((List.range s.blocks.length).map
              (fun i => (blockPosition env s.blocks.length i).x)).sum / (s.blocks.length : ℚ) := by
  obtain ⟨hpos, hlook⟩ := createBlockchainVisualization_camera env s h
  have ha := createBlockchainVisualization_blockMeshAt env s 0 (s.blocks[0])
    (List.getElem?_eq_getElem (by omega))
  have hb := createBlockchainVisualization_blockMeshAt env s (s.blocks.length - 1)
    (s.blocks[s.blocks.length - 1]) (List.getElem?_eq_getElem (by omega))
  have hN : (s.blocks.length : ℚ) ≠ 0 := by
    have : (0 : ℚ) < (s.blocks.length : ℚ) := by exact_mod_cast h
    exact ne_of_gt this
  have hcast : ((s.blocks.length - 1 : Nat) : ℚ) = (s.blocks.length : ℚ) - 1 := by
    rw [Nat.cast_sub h]; simp
  refine ⟨_, _, ha, hb, ?_, ?_, ?_, ?_⟩
  · rw [hpos]
  · rw [hlook, hpos]
  · rw [hpos]
    simp only [newBlockMesh_position, blockPosition, spacing, hcast]
    push_cast
    ring
  · rw [hpos]
    simp only [blockPosition, spacing]
    rw [sum_blockPosition_x]
    field_simp
    ring

/-- Witness of C13: the four-block chain. -/
theorem camera_centre_is_layout_centre_witness :
    1 ≤ fourBlocks.blocks.length
      ∧ ∃ first last,
        blockMeshAt (createBlockchainVisualization sampleEnv fourBlocks) 0 = some first
        ∧ blockMeshAt (createBlockchainVisualization sampleEnv fourBlocks)
            (fourBlocks.blocks.length - 1) = some last
        ∧ (createBlockchainVisualization sampleEnv fourBlocks).camera.position.x
            = (((fourBlocks.blocks.length : ℚ) - 1) * 3) / 2
                - ((fourBlocks.blocks.length : ℚ) / 2) * 3
        ∧ (createBlockchainVisualization sampleEnv fourBlocks).camera.lookAt
            = some ⟨(createBlockchainVisualization sampleEnv fourBlocks).camera.position.x, 0, 0⟩
        ∧ (createBlockchainVisualization sampleEnv fourBlocks).camera.position.x
            = (first.position.x + last.position.x) / 2
        ∧ (createBlockchainVisualization sampleEnv fourBlocks).camera.position.x
            = ((List.range fourBlocks.blocks.length).map
                (fun i => (blockPosition sampleEnv fourBlocks.blocks.length i).x)).sum
              / (fourBlocks.blocks.length : ℚ) :=
  ⟨by decide, camera_centre_is_layout_centre sampleEnv fourBlocks (by decide)⟩

theorem progress_bounds (e : ℚ) (h : 0 ≤ e) : 0 ≤ progress e ∧ progress e ≤ 1 := by
  unfold progress duration
  refine ⟨le_min (by positivity) (by norm_num), min_le_right _ _⟩

theorem progress_mono (e1 e2 : ℚ) (h : e1 ≤ e2) : progress e1 ≤ progress e2 := by
  unfold progress duration
  exact min_le_min (by linarith) (le_refl 1)

/-- C14: with `t = min(e / 1000, 1)` and `eased e = 1 - (1 - t) ^ 3`, for elapsed
times `0 <= e1 <= e2`: `eased e1` lies in `[0, 1]`, `eased 0 = 0`, `eased e2 = 1`
once `e2 >= 1000`, and `eased e1 <= eased e2`. -/
theorem eased_clamped_monotone (e1 e2 : ℚ) (h0 : 0 ≤ e1) (h12 : e1 ≤ e2) :
    progress e1 = min (e1 / 1000) 1
      ∧ eased e1 = 1 - (1 - progress e1) ^ 3
      ∧ 0 ≤ eased e1 ∧ eased e1 ≤ 1
      ∧ eased 0 = 0
      ∧ (1000 ≤ e2 → eased e2 = 1)
      ∧ eased e1 ≤ eased e2 := by
  obtain ⟨ha, hb⟩ := progress_bounds e1 h0
  obtain ⟨hc, hd⟩ := progress_bounds e2 (le_trans h0 h12)
  have hm := progress_mono e1 e2 h12
  have hp1 : (1 - progress e1) ^ 3 ≤ 1 := pow_le_one₀ (by linarith) (by linarith)
  have hp0 : 0 ≤ (1 - progress e1) ^ 3 := pow_nonneg (by linarith) 3
  refine ⟨rfl, rfl, ?_, ?_, ?_, ?_, ?_⟩
  · unfold eased; linarith
  · unfold eased; linarith
  · simp [eased, progress, duration]
  · intro h
    have hp : progress e2 = 1 := by
      unfold progress duration
      exact min_eq_right (by rw [le_div_iff₀ (by norm_num)]; linarith)
    simp [eased, hp]
  · unfold eased
    have := pow_le_pow_left₀ (show (0 : ℚ) ≤ 1 - progress e2 by linarith)
      (show 1 - progress e2 ≤ 1 - progress e1 by linarith) 3
    linarith

/-- Witness of C14: 250 ms and 600 ms. -/
theorem eased_clamped_monotone_witness :
    (0 : ℚ) ≤ 250 ∧ (250 : ℚ) ≤ 600
      ∧ progress 250 = min (250 / 1000) 1
      ∧ eased 250 = 1 - (1 - progress 250) ^ 3
      ∧ 0 ≤ eased 250 ∧ eased 250 ≤ 1
      ∧ eased 0 = 0
      ∧ ((1000 : ℚ) ≤ 600 → eased 600 = 1)
      ∧ eased 250 ≤ eased 600 :=
  ⟨by norm_num, by norm_num, eased_clamped_monotone 250 600 (by norm_num) (by norm_num)⟩

theorem eased_of_duration_le (elapsed : ℚ) (h : 1000 ≤ elapsed) :
    progress elapsed = 1 ∧ eased elapsed = 1 := by
  have hp : progress elapsed = 1 := by
    unfold progress duration
    exact min_eq_right (by rw [le_div_iff₀ (by norm_num)]; linarith)
  exact ⟨hp, by simp [eased, hp]⟩

theorem lerp_coordinate_exact (start target : ℚ) (h : exactStep start target) :
    addDouble start (mulDouble (subDouble target start) 1) = target := by
  obtain ⟨ht, hd⟩ := h
  unfold addDouble mulDouble subDouble
  rw [hd, mul_one, hd]
  have hsum : start + (target - start) = target := by ring
  rw [hsum, ht]

theorem selectBlock_camera (env : Env) (s : Blockchain3D) (b : Nat) (elapsed : ℚ) :
    (selectBlock env s b elapsed).camera
      = (animateCamera s.camera.position (focusTarget (s.meshes b).position)
          (s.meshes b).position elapsed s.camera).1 := by
  unfold selectBlock forEach
  simp only [forEachFrom_resetMesh]
  unfold focusOnBlock animateCameraTo showBlockDetails
  dsimp only
  split <;> simp [Mesh.emphasised, Mesh.neutral] <;> split_ifs <;> rfl

/-- C15, as the code has it: the closure that `focusOnBlock` starts for a mesh at
`(x, y, z)` has the target `(x, y + 2, z + 5)` (sums in doubles); a step of it at
`elapsed >= 1000` asks for no further frame and puts each camera coordinate at
`start + (target - start) * 1` computed in doubles, which is the target itself when
the target coordinate and its difference from the start are doubles.  This includes
the first step, which `selectBlock` runs itself. -/
theorem camera_animation_final_step (env : Env) (s : Blockchain3D) (b : Nat)
    (startPosition lookAtPosition : Vector3) (camera : Camera) (elapsed : ℚ)
    (h : 1000 ≤ elapsed) :
    focusTarget (s.meshes b).position
        = ⟨(s.meshes b).position.x, roundDouble ((s.meshes b).position.y + 2),
            roundDouble ((s.meshes b).position.z + 5)⟩
      ∧ (animateCamera startPosition (focusTarget (s.meshes b).position) lookAtPosition
            elapsed camera).2 = false
      ∧ (animateCamera startPosition (focusTarget (s.meshes b).position) lookAtPosition
            elapsed camera).1.position
          = ⟨roundDouble (startPosition.x + roundDouble (roundDouble
                ((focusTarget (s.meshes b).position).x - startPosition.x) * 1)),
             roundDouble (startPosition.y + roundDouble (roundDouble
                ((focusTarget (s.meshes b).position).y - startPosition.y) * 1)),
             roundDouble (startPosition.z + roundDouble (roundDouble
                ((focusTarget (s.meshes b).position).z - startPosition.z) * 1))⟩
      ∧ (exactStep startPosition.x (focusTarget (s.meshes b).position).x
          ∧ exactStep startPosition.y (focusTarget (s.meshes b).position).y
          ∧ exactStep startPosition.z (focusTarget (s.meshes b).position).z →
          (animateCamera startPosition (focusTarget (s.meshes b).position) lookAtPosition
            elapsed camera).1.position = focusTarget (s.meshes b).position)
      ∧ (selectBlock env s b elapsed).camera.position
          = (animateCamera s.camera.position (focusTarget (s.meshes b).position)
              (s.meshes b).position elapsed s.camera).1.position
      ∧ (selectBlock env s b elapsed).camera.lookAt = some (s.meshes b).position := by
  obtain ⟨hp, he⟩ := eased_of_duration_le elapsed h
  refine ⟨rfl, ?_, ?_, ?_, ?_, ?_⟩
  · simp [animateCamera, hp]
  · simp only [animateCamera, he, lerpVectors, addDouble, mulDouble, subDouble]
  · rintro ⟨hx, hy, hz⟩
    simp only [animateCamera, he, lerpVectors]
    rw [lerp_coordinate_exact _ _ hx, lerp_coordinate_exact _ _ hy,
      lerp_coordinate_exact _ _ hz]
  · rw [selectBlock_camera]
  · rw [selectBlock_camera]
    simp [animateCamera]

/-- Witness of C15 as amended: mesh 2 of the laid-out four-block chain, at `(0, 0, 0)`,
framed from the start position `(0, 5, 10)` by a step at 1000 ms. -/
theorem camera_animation_final_step_witness :
    (1000 : ℚ) ≤ 1000
      ∧ exactStep 0 (focusTarget (selectedChain.meshes 2).position).x
      ∧ exactStep 5 (focusTarget (selectedChain.meshes 2).position).y
      ∧ exactStep 10 (focusTarget (selectedChain.meshes 2).position).z
      ∧ (animateCamera ⟨0, 5, 10⟩ (focusTarget (selectedChain.meshes 2).position)
            (selectedChain.meshes 2).position 1000 selectedChain.camera).1.position
          = focusTarget (selectedChain.meshes 2).position
      ∧ (animateCamera ⟨0, 5, 10⟩ (focusTarget (selectedChain.meshes 2).position)
            (selectedChain.meshes 2).position 1000 selectedChain.camera).2 = false :=
  have h := camera_animation_final_step sampleEnv selectedChain 2 ⟨0, 5, 10⟩
    (selectedChain.meshes 2).position selectedChain.camera 1000 (le_refl _)
  have hx : exactStep 0 (focusTarget (selectedChain.meshes 2).position).x := by decide!
  have hy : exactStep 5 (focusTarget (selectedChain.meshes 2).position).y := by decide!
  have hz : exactStep 10 (focusTarget (selectedChain.meshes 2).position).z := by decide!
  ⟨le_refl _, hx, hy, hz, h.2.2.2.1 ⟨hx, hy, hz⟩, h.2.1⟩

/-- C15 as stated fails: for mesh 2 of the laid-out three-block chain, at
`(1.5, 0, 0)`, a step at 1000 ms of the animation that started from the abscissa
`-1.641708288` puts the camera at the abscissa `1.5000000000000002`, not at the
target's `1.5`. -/
theorem camera_target_missed_counterexample :
    (laidOutThree.meshes 2).position = ⟨3 / 2, 0, 0⟩
      ∧ (focusTarget (laidOutThree.meshes 2).position).x = 3 / 2
      ∧ (animateCamera orbitedStart (focusTarget (laidOutThree.meshes 2).position)
            (laidOutThree.meshes 2).position 1000 laidOutThree.camera).1.position.x
          = 6755399441055745 / 4503599627370496
      ∧ (animateCamera orbitedStart (focusTarget (laidOutThree.meshes 2).position)
            (laidOutThree.meshes 2).position 1000 laidOutThree.camera).1.position
          ≠ focusTarget (laidOutThree.meshes 2).position := by
  have hx : (animateCamera orbitedStart (focusTarget (laidOutThree.meshes 2).position)
      (laidOutThree.meshes 2).position 1000 laidOutThree.camera).1.position.x
        = 6755399441055745 / 4503599627370496 := by decide!
  have ht : (focusTarget (laidOutThree.meshes 2).position).x = 3 / 2 := by decide!
  refine ⟨by decide!, ht, hx, ?_⟩
  intro heq
  have hsame := congrArg Vector3.x heq
  rw [hx, ht] at hsame
  revert hsame
  decide!

theorem join_append (xs ys : List String) :
    String.join (xs ++ ys) = String.join xs ++ String.join ys := by
  apply String.ext
  simp [String.join_eq]

theorem join_cons (x : String) (xs : List String) :
    String.join (x :: xs) = x ++ String.join xs := by
  apply String.ext
  simp [String.join_eq]

theorem ne_empty_of_length_pos (x : String) (h : 0 < x.length) : x ≠ "" := by
  intro hx
  rw [hx] at h
  exact absurd h (by decide)

theorem transactionItem_length_pos (env : Env) (tx : TransactionRecord) :
    0 < (transactionItem env tx).length := by
  unfold transactionItem
  simp only [String.length_append]
  have : 0 < ("\n<div class=\"transaction-item\">\n").length := by decide
  omega

theorem exists_split_append (head middle tail item : String)
    (h : ∃ a b, middle = a ++ item ++ b) :
    ∃ before after, head ++ middle ++ tail = before ++ item ++ after := by
  obtain ⟨a, b, hm⟩ := h
  refine ⟨head ++ a, b ++ tail, ?_⟩
  rw [hm]
  simp only [String.append_assoc]

theorem blockDetailsHtml_contains (env : Env) (block : BlockRecord) (tx : TransactionRecord)
    (htx : tx ∈ block.transactions) :
    ∃ before after, blockDetailsHtml env block = before ++ transactionItem env tx ++ after := by
  obtain ⟨l1, l2, hsplit⟩ := List.append_of_mem htx
  have hjoin : String.join (block.transactions.map (transactionItem env))
      = String.join (l1.map (transactionItem env)) ++ transactionItem env tx
          ++ String.join (l2.map (transactionItem env)) := by
    rw [hsplit, List.map_append, join_append, List.map_cons, join_cons, String.append_assoc]
  have hne : String.join (block.transactions.map (transactionItem env)) ≠ "" := by
    apply ne_empty_of_length_pos
    rw [hjoin]
    simp only [String.length_append]
    have := transactionItem_length_pos env tx
    omega
  unfold blockDetailsHtml
  simp only [bne_iff_ne, ne_eq, hne, not_false_eq_true, if_true]
  exact exists_split_append _ _ _ _ ⟨_, _, hjoin⟩

/-- C16: on a page with the `block-info` panel, the detail view of a block contains
the summary of each of its transactions; the summary always has the `Type` entry,
and its `User`, `Amount` and `Certificate` entries are empty when `user_id`,
`amount`, `certificate_id` are absent from the transaction. -/
theorem transaction_summary_entries (env : Env) (s : Blockchain3D) (block : BlockRecord)
    (tx : TransactionRecord) (panel : String) (hpanel : s.document "block-info" = some panel)
    (htx : tx ∈ block.transactions) :
    (∃ before after, (showBlockDetails env s block).document "block-info"
        = some (before ++ transactionItem env tx ++ after))
      ∧ transactionItem env tx
          = "\n<div class=\"transaction-item\">\n"
              ++ ("<small><strong>Type:</strong> " ++ tx.type ++ "</small>") ++ "\n"
              ++ userEntry tx ++ "\n" ++ amountEntry env tx ++ "\n" ++ certificateEntry tx
              ++ "\n</div>\n"
      ∧ (tx.user_id = none → userEntry tx = "")
      ∧ (tx.amount = none → amountEntry env tx = "")
      ∧ (tx.certificate_id = none → certificateEntry tx = "")
      ∧ (userEntry tx ≠ "" → tx.user_id ≠ none)
      ∧ (amountEntry env tx ≠ "" → tx.amount ≠ none)
      ∧ (certificateEntry tx ≠ "" → tx.certificate_id ≠ none) := by
  have hu : tx.user_id = none → userEntry tx = "" := by
    intro h; simp [userEntry, h, truthyString]
  have ha : tx.amount = none → amountEntry env tx = "" := by
    intro h; simp [amountEntry, h, truthyNumber]
  have hc : tx.certificate_id = none → certificateEntry tx = "" := by
    intro h; simp [certificateEntry, h, truthyString]
  refine ⟨?_, rfl, hu, ha, hc, fun h h2 => h (hu h2), fun h h2 => h (ha h2),
    fun h h2 => h (hc h2)⟩
  obtain ⟨before, after, hhtml⟩ := blockDetailsHtml_contains env block tx htx
  refine ⟨before, after, ?_⟩
  unfold showBlockDetails
  rw [hpanel]
  simp [hhtml]

/-- Witness of C16: the transaction with a user and a certificate in `certifiedBlock`,
shown on the sample page. -/
theorem transaction_summary_entries_witness :
    oneBlock.document "block-info" = some ""
      ∧ sampleTransaction ∈ certifiedBlock.transactions
      ∧ (∃ before after, (showBlockDetails sampleEnv oneBlock certifiedBlock).document "block-info"
          = some (before ++ transactionItem sampleEnv sampleTransaction ++ after))
      ∧ (sampleTransaction.amount = none → amountEntry sampleEnv sampleTransaction = "") :=
  have h := transaction_summary_entries sampleEnv oneBlock certifiedBlock sampleTransaction ""
    (by decide) (by decide)
  ⟨by decide, by decide, h.1, h.2.2.2.1⟩

theorem mem_addEventListener (w : Window) (type : String) (callback : Callback) :
    (type, callback) ∈ (addEventListener w type callback).listeners := by
  unfold addEventListener
  split_ifs with h
  · exact h
  · simp

theorem mem_addEventListener_of_mem (w : Window) (type : String) (callback : Callback)
    (l : String × Callback) (h : l ∈ w.listeners) :
    l ∈ (addEventListener w type callback).listeners := by
  unfold addEventListener
  split_ifs
  · exact h
  · simp [h]

theorem mem_removeEventListener (w : Window) (type : String) (callback : Callback)
    (l : String × Callback) (h : l ∈ w.listeners) (hne : l ≠ (type, callback)) :
    l ∈ (removeEventListener w type callback).listeners := by
  unfold removeEventListener
  simp [h, hne]

/-- C17 fails on the code: after `setupEventListeners` and then `dispose`, the arrow
functions registered for `resize` and `themeChanged` are both still registered on
`window`, because `dispose` asks for the removal of other function objects (the
methods `onWindowResize` and `updateTheme`). -/
theorem dispose_keeps_listeners (s : Blockchain3D) (w : Window) :
    ("resize", resizeListener w) ∈ (setupEventListeners w).listeners
      ∧ ("themeChanged", themeListener w) ∈ (setupEventListeners w).listeners
      ∧ ("resize", resizeListener w) ∈ (dispose s (setupEventListeners w)).2.listeners
      ∧ ("themeChanged", themeListener w) ∈ (dispose s (setupEventListeners w)).2.listeners := by
  have h1 : ("resize", resizeListener w) ∈ (setupEventListeners w).listeners := by
    unfold setupEventListeners resizeListener
    exact mem_addEventListener_of_mem _ _ _ _ (mem_addEventListener _ _ _)
  have h2 : ("themeChanged", themeListener w) ∈ (setupEventListeners w).listeners := by
    unfold setupEventListeners themeListener
    exact mem_addEventListener _ _ _
  refine ⟨h1, h2, ?_, ?_⟩
  · unfold dispose
    refine mem_removeEventListener _ _ _ _ (mem_removeEventListener _ _ _ _ h1 ?_) ?_
    · simp [resizeListener]
    · simp
  · unfold dispose
    refine mem_removeEventListener _ _ _ _ (mem_removeEventListener _ _ _ _ h2 ?_) ?_
    · simp
    · simp [themeListener]

theorem setTheme_fields (t : ThemeManager) (theme : String) :
    (setTheme t theme).currentTheme = theme
      ∧ (setTheme t theme).dataTheme = some theme
      ∧ (setTheme t theme).stored = some theme := by
  unfold setTheme updateThemeIcon
  dsimp only
  split <;> exact ⟨rfl, rfl, rfl⟩

theorem updateThemeIcon_fields (t : ThemeManager) :
    (updateThemeIcon t).currentTheme = t.currentTheme
      ∧ (updateThemeIcon t).dataTheme = t.dataTheme
      ∧ (updateThemeIcon t).stored = t.stored := by
  unfold updateThemeIcon
  split <;> exact ⟨rfl, rfl, rfl⟩

/-- C18: a new `ThemeManager` applies the stored theme (`light` when nothing is
stored; the stored string is taken not to be empty), and after the construction,
after `setTheme(theme)` and after `toggleTheme()` the `currentTheme`, the
`data-theme` attribute and the stored item agree; `toggleTheme` turns `light` into
`dark` and `dark` into `light`, so two toggles from either give it back. -/
theorem theme_persisted_and_consistent (t : ThemeManager) (theme : String)
    (dataTheme stored themeIcon : Option String) (hstored : stored ≠ some "")
    (htheme : t.currentTheme = "light" ∨ t.currentTheme = "dark") :
    (ThemeManager.construct dataTheme stored themeIcon).currentTheme = stored.getD "light"
      ∧ (ThemeManager.construct dataTheme stored themeIcon).dataTheme
          = some (stored.getD "light")
      ∧ (ThemeManager.construct dataTheme stored themeIcon).stored = some (stored.getD "light")
      ∧ (setTheme t theme).currentTheme = theme
      ∧ (setTheme t theme).dataTheme = some theme
      ∧ (setTheme t theme).stored = some theme
      ∧ (toggleTheme t).dataTheme = some (toggleTheme t).currentTheme
      ∧ (toggleTheme t).stored = some (toggleTheme t).currentTheme
      ∧ (t.currentTheme = "light" → (toggleTheme t).currentTheme = "dark")
      ∧ (t.currentTheme = "dark" → (toggleTheme t).currentTheme = "light")
      ∧ (toggleTheme (toggleTheme t)).currentTheme = t.currentTheme := by
  have hinit : initialTheme stored = stored.getD "light" := by
    cases stored with
    | none => rfl
    | some v =>
      have hv : v ≠ "" := fun h => hstored (by rw [h])
      simp [initialTheme, hv]
  have hset := setTheme_fields
  have hdark : ¬ ("dark" = "light") := by decide
  refine ⟨?_, ?_, ?_, (hset t theme).1, (hset t theme).2.1, (hset t theme).2.2, ?_, ?_, ?_, ?_, ?_⟩
  · unfold ThemeManager.construct
    dsimp only
    rw [(updateThemeIcon_fields _).1, (hset _ _).1, hinit]
  · unfold ThemeManager.construct
    dsimp only
    rw [(updateThemeIcon_fields _).2.1, (hset _ _).2.1, hinit]
  · unfold ThemeManager.construct
    dsimp only
    rw [(updateThemeIcon_fields _).2.2, (hset _ _).2.2, hinit]
  · unfold toggleTheme
    dsimp only
    rw [(hset _ _).1, (hset _ _).2.1]
  · unfold toggleTheme
    dsimp only
    rw [(hset _ _).1, (hset _ _).2.2]
  · intro h
    unfold toggleTheme
    dsimp only
    rw [(hset _ _).1, if_pos h]
  · intro h
    unfold toggleTheme
    dsimp only
    rw [(hset _ _).1, if_neg (by rw [h]; exact hdark)]
  · have htoggle : ∀ u : ThemeManager,
        (toggleTheme u).currentTheme = if u.currentTheme = "light" then "dark" else "light" := by
      intro u
      unfold toggleTheme
      dsimp only
      rw [(hset _ _).1]
    rw [htoggle, htoggle]
    rcases htheme with h | h
    · rw [h]; simp
    · rw [h]; simp

/-- Witness of C18: a page where `dark` is stored, and the light manager. -/
theorem theme_persisted_and_consistent_witness :
    (some "dark" : Option String) ≠ some ""
      ∧ (lightManager.currentTheme = "light" ∨ lightManager.currentTheme = "dark")
      ∧ (ThemeManager.construct none (some "dark") none).currentTheme = "dark"
      ∧ (ThemeManager.construct none (some "dark") none).dataTheme = some "dark"
      ∧ (toggleTheme (toggleTheme lightManager)).currentTheme = lightManager.currentTheme :=
  have h := theme_persisted_and_consistent lightManager "dark" none (some "dark") none
    (by decide) (Or.inl (by decide))
  ⟨by decide, Or.inl (by decide), h.1, h.2.1, h.2.2.2.2.2.2.2.2.2.2⟩

theorem isDigit_digitChar (m : Nat) (h : m < 10) : isDigit (Nat.digitChar m) = true := by
  interval_cases m <;> decide

theorem isDigit_toDigitsCore (fuel : Nat) :
    ∀ (n : Nat) (ds : List Char), (∀ c ∈ ds, isDigit c = true) →
      ∀ c ∈ Nat.toDigitsCore 10 fuel n ds, isDigit c = true := by
  induction fuel with
  | zero => intro n ds hds c hc; exact hds c (by simpa [Nat.toDigitsCore] using hc)
  | succ fuel ih =>
    intro n ds hds c hc
    have hcons : ∀ c ∈ Nat.digitChar (n % 10) :: ds, isDigit c = true := by
      intro c hc
      rcases List.mem_cons.mp hc with h | h
      · rw [h]; exact isDigit_digitChar _ (Nat.mod_lt _ (by decide))
      · exact hds c h
    simp only [Nat.toDigitsCore] at hc
    split_ifs at hc
    · exact hcons c hc
    · exact ih _ _ hcons c hc

theorem isDigit_toDigits (n : Nat) : ∀ c ∈ Nat.toDigits 10 n, isDigit c = true :=
  isDigit_toDigitsCore (n + 1) n [] (fun c hc => absurd hc (List.not_mem_nil c))

theorem isWord_of_isDigit (c : Char) (h : isDigit c = true) : isWord c = true := by
  simp [isWord, h]

theorem noDigitAhead_digits (rest : List Char) (h : ∀ c ∈ rest, isDigit c = true) :
    noDigitAhead rest = decide (rest = []) := by
  cases rest with
  | nil => rfl
  | cons c r => simp [noDigitAhead, h c (List.mem_cons_self _ _)]

theorem groupsOfThree_digits (n : Nat) :
    ∀ rest : List Char, rest.length ≤ n → (∀ c ∈ rest, isDigit c = true) →
      groupsOfThree rest = decide (rest.length % 3 = 0 ∧ rest ≠ []) := by
  induction n using Nat.strong_induction_on with
  | _ n ih =>
    intro rest hlen hdigits
    match rest, hlen, hdigits with
    | [], _, _ => simp [groupsOfThree]
    | [_], _, _ => simp [groupsOfThree]
    | [_, _], _, _ => simp [groupsOfThree]
    | a :: b :: c :: r, hlen, hdigits =>
      have hr : ∀ x ∈ r, isDigit x = true := fun x hx => hdigits x (by simp [hx])
      have ha := hdigits a (by simp)
      have hb := hdigits b (by simp)
      have hc := hdigits c (by simp)
      have hlen2 : r.length < n := by simp at hlen; omega
      rw [groupsOfThree, ih r.length hlen2 r (le_refl _) hr, noDigitAhead_digits r hr, ha, hb, hc]
      cases r with
      | nil => simp
      | cons x xs =>
        simp only [List.length_cons]
        have h3 : (xs.length + 1 + 1 + 1 + 1) % 3 = (xs.length + 1) % 3 := by omega
        simp [h3]

theorem replaceFrom_digits (rest : List Char) :
    ∀ d : Char, isDigit d = true → (∀ c ∈ rest, isDigit c = true) →
      replaceFrom (some d) rest
        = (if rest.length % 3 = 0 ∧ rest ≠ [] then [','] else []) ++ groupThousands rest := by
  induction rest with
  | nil => intro d _ _; simp [replaceFrom, matchesAt, groupsOfThree, groupThousands]
  | cons c r ih =>
    intro d hd hdigits
    have hc := hdigits c (List.mem_cons_self _ _)
    have hr : ∀ x ∈ r, isDigit x = true := fun x hx => hdigits x (List.mem_cons_of_mem _ hx)
    have hmatch : matchesAt (some d) (c :: r)
        = decide ((c :: r).length % 3 = 0 ∧ c :: r ≠ []) := by
      unfold matchesAt
      rw [groupsOfThree_digits _ _ (le_refl _) hdigits]
      simp [notWordBoundary, isWord_of_isDigit d hd, isWord_of_isDigit c hc]
    rw [replaceFrom, ih c hc hr, hmatch]
    simp [groupThousands]

theorem replaceFrom_none_digits (ds : List Char) (hdigits : ∀ c ∈ ds, isDigit c = true) :
    replaceFrom none ds = groupThousands ds := by
  cases ds with
  | nil => simp [replaceFrom, matchesAt, groupsOfThree, groupThousands]
  | cons c r =>
    have hc := hdigits c (List.mem_cons_self _ _)
    have hr : ∀ x ∈ r, isDigit x = true := fun x hx => hdigits x (List.mem_cons_of_mem _ hx)
    rw [replaceFrom, replaceFrom_digits r c hc hr]
    simp [matchesAt, notWordBoundary, isWord_of_isDigit c hc, groupThousands]

theorem groupThousands_filter (ds : List Char) (hdigits : ∀ c ∈ ds, isDigit c = true) :
    (groupThousands ds).filter (fun c => c != ',') = ds := by
  induction ds with
  | nil => rfl
  | cons c r ih =>
    have hc := hdigits c (List.mem_cons_self _ _)
    have hr : ∀ x ∈ r, isDigit x = true := fun x hx => hdigits x (List.mem_cons_of_mem _ hx)
    have hne : (c != ',') = true := by
      rw [bne_iff_ne]
      intro h
      rw [h] at hc
      exact absurd hc (by decide)
    rw [groupThousands, List.filter_cons, hne, if_pos rfl, List.filter_append, ih hr]
    split_ifs <;> simp

theorem groupThousands_getLast (ds : List Char) :
    (groupThousands ds).getLast? = ds.getLast? := by
  induction ds with
  | nil => rfl
  | cons c r ih =>
    cases r with
    | nil => simp [groupThousands]
    | cons x xs =>
      have hne : groupThousands (x :: xs) ≠ [] := by simp [groupThousands]
      rw [groupThousands, List.getLast?_cons_cons, ← ih]
      cases hg : groupThousands (x :: xs) with
      | nil => exact absurd hg hne
      | cons y ys =>
        split_ifs <;> simp [List.getLast?_cons_cons]

theorem groupThousands_count (ds : List Char) (hdigits : ∀ c ∈ ds, isDigit c = true) :
    (groupThousands ds).count ',' = (ds.length - 1) / 3 := by
  induction ds with
  | nil => rfl
  | cons c r ih =>
    have hc := hdigits c (List.mem_cons_self _ _)
    have hr : ∀ x ∈ r, isDigit x = true := fun x hx => hdigits x (List.mem_cons_of_mem _ hx)
    have hne : c ≠ ',' := by
      intro h
      rw [h] at hc
      exact absurd hc (by decide)
    rw [groupThousands, List.count_cons_of_ne hne.symm, List.count_append, ih hr]
    cases r with
    | nil => simp
    | cons x xs =>
      simp only [List.length_cons, ne_eq, not_false_eq_true, and_true, reduceCtorEq,
        Nat.add_sub_cancel]
      split_ifs with h3
      · simp only [List.count_singleton_self]
        omega
      · simp only [List.count_nil]
        omega

theorem leadingBitFrom_bounds (fuel : Nat) :
    ∀ n, n ≤ fuel → 0 < n →
      2 ^ leadingBitFrom fuel n ≤ n ∧ n < 2 ^ (leadingBitFrom fuel n + 1) := by
  induction fuel with
  | zero => intro n h0 hpos; omega
  | succ fuel ih =>
    intro n hle hpos
    unfold leadingBitFrom
    by_cases h2 : n < 2
    · rw [if_pos h2]
      simp only [pow_zero, zero_add, pow_one]
      omega
    · rw [if_neg h2]
      obtain ⟨hlo, hhi⟩ := ih (n / 2) (by omega) (by omega)
      rw [pow_succ, pow_succ]
      rw [pow_succ] at hhi
      omega

theorem leadingBit_bounds (n : Nat) (hpos : 0 < n) :
    2 ^ leadingBit n ≤ n ∧ n < 2 ^ (leadingBit n + 1) :=
  leadingBitFrom_bounds n n (le_refl n) hpos

theorem roundInteger_of_lt (x : Nat) (h : x < 2 ^ 53) : roundInteger x = x := by
  unfold roundInteger
  rw [if_pos h]

theorem roundInteger_ge (x : Nat) (h : 2 ^ 53 ≤ x) : 2 ^ 53 ≤ roundInteger x := by
  have hpos : 0 < x := lt_of_lt_of_le (by norm_num) h
  obtain ⟨hlo, hhi⟩ := leadingBit_bounds x hpos
  have hk : 53 ≤ leadingBit x := by
    have hlt : 2 ^ 53 < 2 ^ (leadingBit x + 1) := lt_of_le_of_lt h hhi
    have := (Nat.pow_lt_pow_iff_right (by norm_num : 1 < 2)).mp hlt
    omega
  have hsplit : 2 ^ 52 * 2 ^ (leadingBit x - 52) = 2 ^ leadingBit x := by
    rw [← pow_add]
    congr 1
    omega
  have hq : 2 ^ 52 ≤ x / 2 ^ (leadingBit x - 52) := by
    rw [Nat.le_div_iff_mul_le (by positivity)]
    rw [hsplit]
    exact hlo
  have he : 2 ≤ 2 ^ (leadingBit x - 52) := by
    calc 2 = 2 ^ 1 := by norm_num
      _ ≤ 2 ^ (leadingBit x - 52) := Nat.pow_le_pow_right (by norm_num) (by omega)
  unfold roundInteger
  rw [if_neg (by omega)]
  dsimp only
  have hm : ∀ m, x / 2 ^ (leadingBit x - 52) ≤ m → 2 ^ 53 ≤ m * 2 ^ (leadingBit x - 52) := by
    intro m hm
    calc 2 ^ 53 = 2 ^ 52 * 2 := by norm_num
      _ ≤ m * 2 ^ (leadingBit x - 52) := Nat.mul_le_mul (le_trans hq hm) he
  split_ifs
  · exact hm _ (le_refl _)
  · exact hm _ (Nat.le_succ _)
  · exact hm _ (le_refl _)
  · exact hm _ (Nat.le_succ _)

theorem eq_of_roundInteger_eq (v n : Nat) (hn : n < 2 ^ 53) (h : roundInteger v = n) :
    v = n := by
  by_cases hv : v < 2 ^ 53
  · rw [roundInteger_of_lt v hv] at h
    exact h
  · have := roundInteger_ge v (by omega)
    omega

theorem shortestAt_rounds (x j v : Nat) (h : shortestAt x j = some v) :
    roundInteger v = x := by
  unfold shortestAt at h
  dsimp only at h
  split_ifs at h with h1 h2 h3
  · rw [← Option.some.inj h]; exact h2.1
  · rw [← Option.some.inj h]; exact h1
  · rw [← Option.some.inj h]; exact h3

theorem shortestDecimal_of_lt (n : Nat) (hn : n < 2 ^ 53) : shortestDecimal n = n := by
  unfold shortestDecimal
  cases hfind : (List.range (Nat.toDigits 10 n).length).reverse.findSome? (shortestAt n) with
  | none => rfl
  | some v =>
    obtain ⟨j, _, hj⟩ := List.exists_of_findSome?_eq_some hfind
    exact eq_of_roundInteger_eq v n hn (shortestAt_rounds n j v hj)

theorem numberToString_of_lt (n : Nat) (hn : n < 2 ^ 53) :
    numberToString n = Nat.toDigits 10 n := by
  have hlen : (Nat.toDigits 10 n).length ≤ 21 := by
    have h16 := Nat.toDigitsCore_length 10 (by decide) (n + 1) n 16
      (lt_of_lt_of_le hn (by norm_num)) (by decide)
    exact le_trans h16 (by decide)
  unfold numberToString
  rw [shortestDecimal_of_lt n hn]
  dsimp only
  rw [if_pos hlen]

/-- C19, as the code has it: for a non-negative integer `n` below `2 ^ 53`,
`n.toString()` is the decimal digit string of `n`, and `formatNumber n` is that
string with a comma before every digit that is followed by a positive multiple of
three digits up to the end, and nowhere else: it is `groupThousands` of the digits,
it has `(digits - 1) / 3` commas, removing the commas gives the digit string back,
and neither its first nor its last character is a comma. -/
theorem formatNumber_groups_thousands (n : Nat) (hn : n < 2 ^ 53) :
    (Nat.repr n).data = Nat.toDigits 10 n
      ∧ numberToString n = (Nat.repr n).data
      ∧ formatNumber n = String.mk (groupThousands (Nat.repr n).data)
      ∧ (formatNumber n).data.count ',' = ((Nat.repr n).data.length - 1) / 3
      ∧ (formatNumber n).data.filter (fun c => c != ',') = (Nat.repr n).data
      ∧ (formatNumber n).data.head? ≠ some ','
      ∧ (formatNumber n).data.getLast? ≠ some ',' := by
  have hd := isDigit_toDigits n
  have hrepr : (Nat.repr n).data = Nat.toDigits 10 n := rfl
  have hstr := numberToString_of_lt n hn
  have hfmt : (formatNumber n).data = groupThousands (Nat.toDigits 10 n) := by
    unfold formatNumber
    rw [hstr, replaceFrom_none_digits _ hd]
  have hcomma : ∀ c ∈ Nat.toDigits 10 n, c ≠ ',' := by
    intro c hc h
    have := hd c hc
    rw [h] at this
    exact absurd this (by decide)
  refine ⟨hrepr, by rw [hstr, hrepr], ?_, ?_, ?_, ?_, ?_⟩
  · apply String.ext
    rw [hfmt, hrepr]
  · rw [hfmt, hrepr, groupThousands_count _ hd]
  · rw [hfmt, hrepr, groupThousands_filter _ hd]
  · rw [hfmt]
    cases hds : Nat.toDigits 10 n with
    | nil => simp [groupThousands]
    | cons c r =>
      have hc : c ≠ ',' := hcomma c (by rw [hds]; exact List.mem_cons_self _ _)
      simpa [groupThousands] using hc
  · rw [hfmt, groupThousands_getLast]
    intro hlast
    exact hcomma ',' (List.mem_of_getLast?_eq_some hlast) rfl

/-- Witness of C19 as amended: the examples 999, 1000 and 1234567. -/
theorem formatNumber_groups_thousands_witness :
    1234567 < 2 ^ 53
      ∧ formatNumber 999 = "999"
      ∧ formatNumber 1000 = "1,000"
      ∧ formatNumber 1234567 = "1,234,567" :=
  ⟨by decide,
    (formatNumber_groups_thousands 999 (by decide)).2.2.1.trans (by decide),
    (formatNumber_groups_thousands 1000 (by decide)).2.2.1.trans (by decide),
    (formatNumber_groups_thousands 1234567 (by decide)).2.2.1.trans (by decide)⟩

/-- C19 as stated fails: `2 ^ 60` and `10 ^ 21` are non-negative integers and doubles,
but `formatNumber` gives "1,152,921,504,606,847,000" for the first, which is not the
grouped digit string of `2 ^ 60 = 1152921504606846976`, and "1e+21" for the second,
which has no comma at all. -/
theorem formatNumber_large_counterexample :
    roundInteger (2 ^ 60) = 2 ^ 60
      ∧ formatNumber (2 ^ 60) = "1,152,921,504,606,847,000"
      ∧ String.mk (groupThousands (Nat.repr (2 ^ 60)).data) = "1,152,921,504,606,846,976"
      ∧ formatNumber (2 ^ 60) ≠ String.mk (groupThousands (Nat.repr (2 ^ 60)).data)
      ∧ roundInteger (10 ^ 21) = 10 ^ 21
      ∧ formatNumber (10 ^ 21) = "1e+21"
      ∧ formatNumber (10 ^ 21) ≠ String.mk (groupThousands (Nat.repr (10 ^ 21)).data) := by
  refine ⟨by decide!, by decide!, by decide!, by decide!, by decide!, by decide!, by decide!⟩

theorem forEachFrom_layoutBlock_selectedBlock (env : Env) (blocks : List BlockRecord) :
    ∀ (i : Nat) (s : Blockchain3D),
      (forEachFrom (layoutBlock env) i blocks s).selectedBlock = s.selectedBlock := by
  induction blocks with
  | nil => intro i s; rfl
  | cons b rest ih =>
    intro i s
    simp only [forEachFrom]
    rw [ih, layoutBlock_selectedBlock]

theorem createBlockchainVisualization_selectedBlock (env : Env) (s : Blockchain3D) :
    (createBlockchainVisualization env s).selectedBlock = s.selectedBlock := by
  unfold createBlockchainVisualization forEach
  dsimp only
  rw [(centerCameraOnChain_fields _).2.2.2.2.2.1, forEachFrom_layoutBlock_selectedBlock]
  rfl

theorem updateElement_fields (s : Blockchain3D) (id : String) (value : Nat) :
    (updateElement s id value).blockMeshes = s.blockMeshes
      ∧ (updateElement s id value).nextMesh = s.nextMesh
      ∧ (updateElement s id value).selectedBlock = s.selectedBlock := by
  unfold updateElement
  split <;> exact ⟨rfl, rfl, rfl⟩

theorem updateStatistics_fields (s : Blockchain3D) :
    (updateStatistics s).blockMeshes = s.blockMeshes
      ∧ (updateStatistics s).nextMesh = s.nextMesh
      ∧ (updateStatistics s).selectedBlock = s.selectedBlock := by
  unfold updateStatistics
  dsimp only
  obtain ⟨a1, a2, a3⟩ := updateElement_fields s "total-blocks" s.blocks.length
  obtain ⟨b1, b2, b3⟩ := updateElement_fields (updateElement s "total-blocks" s.blocks.length)
    "total-transactions" (totalTransactions s.blocks)
  obtain ⟨c1, c2, c3⟩ := updateElement_fields
    (updateElement (updateElement s "total-blocks" s.blocks.length)
      "total-transactions" (totalTransactions s.blocks)) "chain-length" s.blocks.length
  exact ⟨c1.trans (b1.trans a1), c2.trans (b2.trans a2), c3.trans (b3.trans a3)⟩

theorem updateBlocksTable_fields (env : Env) (s : Blockchain3D) :
    (updateBlocksTable env s).blockMeshes = s.blockMeshes
      ∧ (updateBlocksTable env s).nextMesh = s.nextMesh
      ∧ (updateBlocksTable env s).selectedBlock = s.selectedBlock := by
  unfold updateBlocksTable
  split <;> exact ⟨rfl, rfl, rfl⟩

theorem loadBlockchainData_success_fields (env : Env) (s : Blockchain3D) (status : Nat)
    (blocks : List BlockRecord) :
    (loadBlockchainData env s (FetchResult.response true status (some blocks))).blockMeshes
        = List.range' s.nextMesh blocks.length
      ∧ (loadBlockchainData env s (FetchResult.response true status (some blocks))).nextMesh
        = s.nextMesh + blocks.length
      ∧ (loadBlockchainData env s (FetchResult.response true status (some blocks))).selectedBlock
        = s.selectedBlock := by
  have hl := createBlockchainVisualization_laidOut env { s with blocks := blocks }
  have hsel := createBlockchainVisualization_selectedBlock env { s with blocks := blocks }
  unfold loadBlockchainData
  dsimp only
  obtain ⟨t1, t2, t3⟩ := updateBlocksTable_fields env
    (updateStatistics (createBlockchainVisualization env { s with blocks := blocks }))
  obtain ⟨u1, u2, u3⟩ := updateStatistics_fields
    (createBlockchainVisualization env { s with blocks := blocks })
  exact ⟨t1.trans (u1.trans hl.blockMeshes_eq), t2.trans (u2.trans hl.nextMesh_eq),
    t3.trans (u3.trans hsel)⟩

theorem selectBlock_nextMesh (env : Env) (s : Blockchain3D) (b : Nat) (elapsed : ℚ) :
    (selectBlock env s b elapsed).nextMesh = s.nextMesh := by
  unfold selectBlock forEach
  simp only [forEachFrom_resetMesh]
  unfold focusOnBlock animateCameraTo showBlockDetails
  dsimp only
  split <;> rfl

theorem Reachable.created (env : Env) (s : Blockchain3D) (h : Reachable env s) :
    (∀ id ∈ s.blockMeshes, id < s.nextMesh)
      ∧ (∀ b, s.selectedBlock = some b → b < s.nextMesh) := by
  induction h with
  | initial document controls =>
    exact ⟨fun id hid => absurd hid (List.not_mem_nil id), fun b hb => by cases hb⟩
  | load status blocks _ ih =>
    obtain ⟨h1, h2, h3⟩ := loadBlockchainData_success_fields env _ status blocks
    refine ⟨?_, ?_⟩
    · intro id hid
      rw [h1] at hid
      rw [h2]
      have := (List.mem_range'_1.mp hid).2
      exact this
    · intro b hb
      rw [h3] at hb
      rw [h2]
      have := ih.2 b hb
      omega
  | select b elapsed _ hmem ih =>
    obtain ⟨h1, h2, _⟩ := selectBlock_fields env _ b elapsed
    rw [selectBlock_nextMesh]
    refine ⟨?_, ?_⟩
    · intro id hid
      rw [h2] at hid
      exact ih.1 id hid
    · intro c hc
      rw [h1] at hc
      have hbc : b = c := Option.some.inj hc
      rw [← hbc]
      exact ih.1 b hmem
  | clear _ ih =>
    exact ⟨fun id hid => absurd hid (List.not_mem_nil id), ih.2⟩

theorem loadedOnce_reachable : Reachable sampleEnv loadedOnce :=
  Reachable.load 200 [sampleBlock 0 0] (Reachable.initial samplePage none)

theorem clearedAfterSelect_reachable : Reachable sampleEnv clearedAfterSelect :=
  Reachable.clear (Reachable.select 0 0 loadedOnce_reachable (by decide))

/-- C20, as the code has it: in every reachable state (also one whose `blockMeshes`
is empty) `selectedBlock` is null or a mesh the instance has created, one of the
current `blockMeshes` or of an earlier generation; every mesh of `blockMeshes` is a
created mesh; `selectBlock` on a mesh of `blockMeshes` makes it the selection and
keeps it in `blockMeshes`; `clearScene` and `createBlockchainVisualization` leave
`selectedBlock` as it was. -/
theorem selection_is_created_mesh (env : Env) (s : Blockchain3D) (h : Reachable env s) :
    (s.selectedBlock = none ∨ ∃ c, s.selectedBlock = some c ∧ c < s.nextMesh)
      ∧ (∀ id ∈ s.blockMeshes, id < s.nextMesh)
      ∧ (∀ (b : Nat) (elapsed : ℚ), b ∈ s.blockMeshes →
          (selectBlock env s b elapsed).selectedBlock = some b
            ∧ b ∈ (selectBlock env s b elapsed).blockMeshes)
      ∧ (clearScene s).selectedBlock = s.selectedBlock
      ∧ (clearScene s).blockMeshes = []
      ∧ (createBlockchainVisualization env s).selectedBlock = s.selectedBlock
      ∧ (createBlockchainVisualization env s).blockMeshes
          = List.range' s.nextMesh s.blocks.length := by
  obtain ⟨h1, h2⟩ := Reachable.created env s h
  refine ⟨?_, h1, ?_, rfl, rfl, createBlockchainVisualization_selectedBlock env s,
    (createBlockchainVisualization_laidOut env s).blockMeshes_eq⟩
  · cases hsel : s.selectedBlock with
    | none => exact Or.inl rfl
    | some c => exact Or.inr ⟨c, rfl, h2 c hsel⟩
  · intro b elapsed hb
    obtain ⟨k1, k2, _⟩ := selectBlock_fields env s b elapsed
    exact ⟨k1, k2 ▸ hb⟩

/-- Witness of C20 as amended: the state after a load, a selection and `clearScene`,
whose `blockMeshes` is empty and whose selection is the created mesh 0. -/
theorem selection_is_created_mesh_witness :
    Reachable sampleEnv clearedAfterSelect
      ∧ clearedAfterSelect.blockMeshes = []
      ∧ (clearedAfterSelect.selectedBlock = none
          ∨ ∃ c, clearedAfterSelect.selectedBlock = some c ∧ c < clearedAfterSelect.nextMesh)
      ∧ (clearScene clearedAfterSelect).selectedBlock = clearedAfterSelect.selectedBlock :=
  have h := selection_is_created_mesh sampleEnv clearedAfterSelect clearedAfterSelect_reachable
  ⟨clearedAfterSelect_reachable, by decide, h.1, h.2.2.2.1⟩

/-- C20 as stated fails: after a load, `selectBlock` on the laid-out mesh and then
`clearScene` (or a second load), the state is reachable and `selectedBlock` is mesh
0, which is not in the current `blockMeshes`. -/
theorem stale_selection_counterexample :
    Reachable sampleEnv clearedAfterSelect
      ∧ clearedAfterSelect.selectedBlock = some 0
      ∧ 0 ∉ clearedAfterSelect.blockMeshes
      ∧ Reachable sampleEnv reloadedAfterSelect
      ∧ reloadedAfterSelect.selectedBlock = some 0
      ∧ 0 ∉ reloadedAfterSelect.blockMeshes := by
  have hsel : Reachable sampleEnv (selectBlock sampleEnv loadedOnce 0 0) :=
    Reachable.select 0 0 loadedOnce_reachable (by decide)
  exact ⟨Reachable.clear hsel, by decide, by decide,
    Reachable.load 200 [sampleBlock 0 0] hsel, by decide, by decide⟩

end Explorer
